import Mathlib

set_option maxRecDepth 1000000
set_option maxHeartbeats 4000000
set_option linter.constructorNameAsVariable false
set_option linter.unusedVariables false

/-!
Verification development for the nRF5 SDK ECDSA example
(examples/crypto/nrf_crypto/ecdsa/main.c) and the cryptographic core it
delegates to: an ECDSA engine over the NIST P-256 curve.

The demonstration file main.c is the only source file of the repository;
the nrf_crypto library it calls (field and point arithmetic, key
material, nonce source, sign and verify) is not part of the source tree,
so those components are modelled from the specification, as noted on
each definition.  The demonstration glue (alice_sign, bob_verify, the
error-check macro) is translated directly from main.c.
-/

namespace P256

/-! ## Modular exponentiation

Modelled from the spec: FieldArithmetic inversion uses an
exponentiation-based method (Fermat, a ^ (p - 2) mod p).  The
exponentiation is by repeated squaring on a fuel-bounded loop. -/

/-- Main loop of modular exponentiation by repeated squaring. -/
def powmodAux : Nat → Nat → Nat → Nat → Nat → Nat
  | 0, _, _, _, acc => acc
  | fuel + 1, m, base, e, acc =>
    if e = 0 then acc
    else powmodAux fuel m (base * base % m) (e / 2)
      (if e % 2 = 1 then acc * base % m else acc)

/-- Modular exponentiation: base ^ e mod m, computed by repeated squaring. -/
def powmod (base e m : Nat) : Nat := powmodAux e m (base % m) e (1 % m)

/-! ## Curve parameters

Modelled from the spec: CurveParameters is the process-wide immutable
constant set for P-256: prime p, order n, coefficients a and b, and the
base point G. -/

/-- The P-256 field prime. -/
def p : Nat := 0xFFFFFFFF00000001000000000000000000000000FFFFFFFFFFFFFFFFFFFFFFFF

/-- The P-256 group order. -/
def n : Nat := 0xFFFFFFFF00000000FFFFFFFFFFFFFFFFBCE6FAADA7179E84F3B9CAC2FC632551

/-- The P-256 curve coefficient a. -/
def a : Nat := p - 3

/-- The P-256 curve coefficient b. -/
def b : Nat := 0x5AC635D8AA3A93E7B3EBBD55769886BC651D06B0CC53B0F63BCE3C3E27D2604B

/-- The x coordinate of the P-256 base point G. -/
def Gx : Nat := 0x6B17D1F2E12C4247F8BCE6E563A440F277037D812DEB33A0F4A13945D898C296

/-- The y coordinate of the P-256 base point G. -/
def Gy : Nat := 0x4FE342E2FE1A7F9B8EE7EB4A7C0F9E162BCE33576B315ECECBB6406837BF51F5

/-! ## Curve points

Modelled from the spec: a CurvePoint is a pair of field elements
satisfying the curve equation, or the distinguished point at infinity;
field elements are always reduced, with value in [0, p). -/

/-- A curve point: the point at infinity or an affine pair of reduced
field elements. -/
inductive Pt where
  | inf : Pt
  | aff (x y : Nat) : Pt
deriving DecidableEq, Repr

/-- Field inversion by Fermat exponentiation, modelled from the spec. -/
def finv (x : Nat) : Nat := powmod x (p - 2) p

/-- Slope of the tangent line at a point, for doubling. -/
def dblL (x y : Nat) : Nat := (3 * x * x + a) % p * finv (2 * y % p) % p

/-- Slope of the secant line through two points with distinct x. -/
def addL (x1 y1 x2 y2 : Nat) : Nat :=
  (y2 + (p - y1)) % p * finv ((x2 + (p - x1)) % p) % p

/-- The x coordinate of a chord-and-tangent result from the slope. -/
def outX (l x1 x2 : Nat) : Nat := (l * l + (p - x1) + (p - x2)) % p

/-- The y coordinate of a chord-and-tangent result from the slope. -/
def outY (l x1 y1 x3 : Nat) : Nat := (l * ((x1 + (p - x3)) % p) + (p - y1)) % p

/-- Point doubling, modelled from the spec (CurvePointArithmetic). -/
def pointDouble : Pt → Pt
  | .inf => .inf
  | .aff x y =>
    if y = 0 then .inf
    else
      let l := dblL x y
      let x3 := outX l x x
      .aff x3 (outY l x y x3)

/-- Point addition, modelled from the spec (CurvePointArithmetic). -/
def pointAdd : Pt → Pt → Pt
  | .inf, q => q
  | q, .inf => q
  | .aff x1 y1, .aff x2 y2 =>
    if x1 = x2 then
      if (y1 + y2) % p = 0 then .inf
      else pointDouble (.aff x1 y1)
    else
      let l := addL x1 y1 x2 y2
      let x3 := outX l x1 x2
      .aff x3 (outY l x1 y1 x3)

/-- Main loop of scalar multiplication by binary double-and-add,
modelled from the spec (CurvePointArithmetic). -/
def scalarMulAux : Nat → Nat → Pt → Pt
  | 0, _, _ => .inf
  | fuel + 1, k, q =>
    if k = 0 then .inf
    else
      let r := scalarMulAux fuel (k / 2) (pointDouble q)
      if k % 2 = 1 then pointAdd q r else r

/-- Scalar multiplication k times a point. -/
def scalarMul (k : Nat) (q : Pt) : Pt := scalarMulAux k k q

/-- The P-256 base point. -/
def G : Pt := .aff Gx Gy

/-- Decidable on-curve test for an affine pair: coordinates reduced and
the curve equation satisfied.  Modelled from the spec
(CurvePointArithmetic point validation). -/
def onCurve (x y : Nat) : Bool :=
  decide (x < p) && decide (y < p) &&
    decide (y * y % p = (x * x * x + a * x + b) % p)

/-! ## Byte encodings

Modelled from the spec: fixed-width big-endian encodings; private key
32 bytes, signature components 32 bytes each.  Bytes are Nat values
below 256. -/

/-- Big-endian value of a byte list. -/
def beNat (bytes : List Nat) : Nat := bytes.foldl (fun acc d => acc * 256 + d) 0

/-- Little-endian byte list of a value, fixed width. -/
def leBytes : Nat → Nat → List Nat
  | 0, _ => []
  | len + 1, v => v % 256 :: leBytes len (v / 256)

/-- Big-endian byte list of a value, fixed width. -/
def beBytes (len v : Nat) : List Nat := (leBytes len v).reverse

/-! ## Key material

Modelled from the spec (KeyMaterial): import and export of private and
public keys, public key derivation, disposal.  The raw public key
encoding follows the source demonstration, which imports the 64-byte
raw form (32-byte big-endian X followed by 32-byte big-endian Y) with
success; the spec claims a 65-byte tagged form instead, and that
difference is one of the claims under test. -/

/-- Validation errors of key import, modelled from the spec taxonomy. -/
inductive KeyError where
  | invalidKeyLength : KeyError
  | invalidScalarRange : KeyError
  | pointNotOnCurve : KeyError
deriving DecidableEq, Repr

/-- Import of a private key from raw bytes, modelled from the spec:
fails with invalidKeyLength if the length is not 32, fails with
invalidScalarRange if the big-endian value is 0 or at least n. -/
def importPrivateKey (bytes : List Nat) : Except KeyError Nat :=
  if bytes.length ≠ 32 then .error .invalidKeyLength
  else
    let d := beNat bytes
    if d = 0 ∨ n ≤ d then .error .invalidScalarRange
    else .ok d

/-- Export of a private key to its raw 32-byte big-endian form. -/
def exportPrivateKey (d : Nat) : List Nat := beBytes 32 d

/-- Import of a public key from raw bytes.  Modelled from the spec with
the raw size fixed by the source demonstration: the 64-byte X and Y
form; on-curve validation is delegated to CurvePointArithmetic. -/
def importPublicKey (bytes : List Nat) : Except KeyError Pt :=
  if bytes.length ≠ 64 then .error .invalidKeyLength
  else
    let x := beNat (bytes.take 32)
    let y := beNat (bytes.drop 32)
    if onCurve x y then .ok (.aff x y) else .error .pointNotOnCurve

/-- Export of a public key to its raw 64-byte form. -/
def exportPublicKey : Pt → List Nat
  | .inf => []
  | .aff x y => beBytes 32 x ++ beBytes 32 y

/-- Public key derivation Q is d times G, modelled from the spec. -/
def derivePublicKey (d : Nat) : Pt := scalarMul d G

/-! ## ECDSA engine

Modelled from the spec (ECDSAEngine): sign obtains a nonce, computes
r from k times G, computes s, and retries while r or s is zero; verify
rejects out-of-range components as malformed, then checks the point
combination.  The nonce source is a stream of scalars indexed by the
attempt number; the spec contract requires each produced nonce to lie
in [1, n - 1]. -/

/-- One signing attempt with nonce k, modelled from the spec: r is the
x coordinate of k times G reduced mod n, s is kinv times (digest value
plus r times d) mod n; the attempt fails when r or s is zero. -/
def signAttempt (d mbar k : Nat) : Option (Nat × Nat) :=
  match scalarMul k G with
  | .inf => none
  | .aff x _ =>
    if x % n = 0 then none
    else if powmod k (n - 2) n * ((mbar + x % n * d) % n) % n = 0 then none
    else some (x % n, powmod k (n - 2) n * ((mbar + x % n * d) % n) % n)

/-- The retry loop of sign, modelled from the spec: attempts are made
with successive nonces until one succeeds; the loop is fuel bounded. -/
def signLoop (ks : Nat → Nat) (d mbar : Nat) : Nat → Nat → Option (Nat × Nat)
  | 0, _ => none
  | fuel + 1, i =>
    match signAttempt d mbar (ks i) with
    | some sig => some sig
    | none => signLoop ks d mbar fuel (i + 1)

/-- Sign a 32-byte digest, modelled from the spec: the digest is
interpreted as a big-endian integer reduced mod n. -/
def sign (ks : Nat → Nat) (fuel : Nat) (digest : List Nat) (d : Nat) :
    Option (Nat × Nat) :=
  signLoop ks d (beNat digest % n) fuel 0

/-- Verification outcome, modelled from the spec taxonomy: a malformed
signature is distinguished from a well-formed but invalid one. -/
inductive VerifyResult where
  | valid : VerifyResult
  | invalid : VerifyResult
  | malformed : VerifyResult
deriving DecidableEq, Repr

/-- Verify a signature over a 32-byte digest, modelled from the spec:
components out of range give malformed; otherwise the point
u1 times G plus u2 times Q is computed and its x coordinate compared
with r. -/
def verify (digest : List Nat) (q : Pt) (r s : Nat) : VerifyResult :=
  if r = 0 ∨ s = 0 ∨ n ≤ r ∨ n ≤ s then .malformed
  else
    match pointAdd (scalarMul (beNat digest % n * powmod s (n - 2) n % n) G)
        (scalarMul (r * powmod s (n - 2) n % n) q) with
    | .inf => .invalid
    | .aff x _ => if x % n = r then .valid else .invalid

/-- A deterministic nonce strategy, modelled from the spec: NonceSource
strategy (b) derives the nonce deterministically from the private key
and the digest; the keyed pseudorandom construction itself is not
specified, so a concrete deterministic function into [1, n - 1] stands
in for it. -/
def detNonce (d mbar i : Nat) : Nat := (d + mbar + i) % (n - 1) + 1

end P256

namespace EcdsaDemo

/-! ## The demonstration program

Translated from examples/crypto/nrf_crypto/ecdsa/main.c. -/

open P256

/-- The SHA-256 digest of the message Hello Bob, the m_hash array of
main.c. -/
def m_hash : List Nat :=
  [0x42, 0xba, 0x83, 0x54, 0xdb, 0x26, 0x3a, 0x6a,
   0x5a, 0x9f, 0x74, 0xd6, 0xb7, 0xce, 0xb4, 0xc9,
   0x62, 0xa3, 0xd8, 0xfd, 0x58, 0xa4, 0x19, 0x69,
   0xe5, 0x21, 0xeb, 0x02, 0x22, 0x45, 0x54, 0x15]

/-- The predefined example private key of main.c, 32 bytes of 0x11. -/
def m_alice_raw_private_key : List Nat := List.replicate 32 0x11

/-- The predefined example public key of main.c, the raw 64-byte form
associated with the example private key. -/
def m_alice_raw_public_key : List Nat :=
  [0x02, 0x17, 0xE6, 0x17, 0xF0, 0xB6, 0x44, 0x39,
   0x28, 0x27, 0x8F, 0x96, 0x99, 0x9E, 0x69, 0xA2,
   0x3A, 0x4F, 0x2C, 0x15, 0x2B, 0xDF, 0x6D, 0x6C,
   0xDF, 0x66, 0xE5, 0xB8, 0x02, 0x82, 0xD4, 0xED,
   0x19, 0x4A, 0x7D, 0xEB, 0xCB, 0x97, 0x71, 0x2D,
   0x2D, 0xDA, 0x3C, 0xA8, 0x5A, 0xA8, 0x76, 0x5A,
   0x56, 0xF4, 0x5F, 0xC7, 0x58, 0x59, 0x96, 0x52,
   0xF2, 0x89, 0x7C, 0x65, 0x30, 0x6E, 0x57, 0x94]

/-- Return codes compared by main.c.  Modelled from the source headers,
which are not in the source tree: main.c only compares a ret_code_t
against NRF_SUCCESS and NRF_ERROR_CRYPTO_ECDSA_INVALID_SIGNATURE, so
the type keeps those two apart and folds every other value into a third
constructor. -/
inductive RetCode where
  | success : RetCode
  | ecdsaInvalidSignature : RetCode
  | otherError (code : Nat) : RetCode
deriving DecidableEq, Repr

/-- The DEMO_ERROR_CHECK macro of main.c: a code other than NRF_SUCCESS
is logged and escalated through APP_ERROR_CHECK, which does not return;
escalation is modelled as none. -/
def demoErrorCheck : RetCode → Option Unit
  | .success => some ()
  | _ => none

/-- Events observable in the demonstration, used to state ordering
properties of alice_sign. -/
inductive Event where
  | importKey : Event
  | writeSignature (r s : Nat) : Event
  | freeKey : Event
deriving DecidableEq, Repr

/-- Mutable state of the demonstration: the m_signature and
m_signature_size globals of main.c and the private key object. -/
structure DemoState where
  m_signature : Option (Nat × Nat)
  m_signature_size : Nat
  aliceKey : Option Nat
deriving DecidableEq, Repr

/-- The initial demonstration state: globals unset, no key object. -/
def initState : DemoState := ⟨none, 0, none⟩

/-- Freeing the private key only clears the key object; translated from
nrf_crypto_ecc_private_key_free as used by main.c. -/
def freeKey (st : DemoState) : DemoState :=
  { st with aliceKey := none }

/-- The alice_sign function of main.c: import the raw private key, sign
the digest writing the signature into the globals, then free the key.
Any error escalates through DEMO_ERROR_CHECK, modelled as none.  The
returned trace records the event order. -/
def alice_sign (ks : Nat → Nat) (fuel : Nat) (st : DemoState) :
    Option (DemoState × List Event) :=
  match importPrivateKey m_alice_raw_private_key with
  | .error _ => none
  | .ok d =>
    let st1 := { st with aliceKey := some d }
    match sign ks fuel m_hash d with
    | none => none
    | some (r, s) =>
      let st2 := { st1 with m_signature := some (r, s), m_signature_size := 64 }
      let st3 := freeKey st2
      some (st3, [.importKey, .writeSignature r s, .freeKey])

/-- Outcome of bob_verify: which messages were logged and whether the
public key was freed. -/
structure BobOutcome where
  loggedValid : Bool
  loggedWarning : Bool
  freedKey : Bool
deriving DecidableEq, Repr

/-- The branch structure of bob_verify in main.c, as a function of the
return code of nrf_crypto_ecdsa_verify and of the key free call:
success logs the valid message, NRF_ERROR_CRYPTO_ECDSA_INVALID_SIGNATURE
logs a warning and proceeds, any other code escalates through
DEMO_ERROR_CHECK; afterwards the public key is freed. -/
def bob_verify_dispatch (verifyCode freeCode : RetCode) : Option BobOutcome :=
  match verifyCode with
  | .success =>
    match demoErrorCheck freeCode with
    | none => none
    | some _ => some ⟨true, false, true⟩
  | .ecdsaInvalidSignature =>
    match demoErrorCheck freeCode with
    | none => none
    | some _ => some ⟨false, true, true⟩
  | .otherError c =>
    match demoErrorCheck (.otherError c) with
    | none => none
    | some _ => some ⟨false, false, false⟩

/-- Library context argument: main.c passes NULL (none) to both
nrf_crypto_ecdsa_sign and nrf_crypto_ecdsa_verify.  Modelled from the
spec: the source allows a caller-supplied context as a nullable
parameter; the demonstration passes NULL and completes successfully, so
a missing context selects the process-wide default backend rather than
being rejected. -/
def nrf_crypto_ecdsa_sign (ctx : Option Unit) (ks : Nat → Nat) (fuel : Nat)
    (digest : List Nat) (d : Nat) : Except RetCode (Nat × Nat) :=
  match ctx with
  | none => match sign ks fuel digest d with
    | some sig => .ok sig
    | none => .error (.otherError 1)
  | some _ => match sign ks fuel digest d with
    | some sig => .ok sig
    | none => .error (.otherError 1)

/-- The verify call of main.c with its nullable context: a missing
context selects the default backend, and the outcome taxonomy is mapped
to the return codes main.c compares against. -/
def nrf_crypto_ecdsa_verify (ctx : Option Unit) (digest : List Nat) (q : Pt)
    (r s : Nat) : RetCode :=
  match ctx with
  | none => match verify digest q r s with
    | .valid => .success
    | .invalid => .ecdsaInvalidSignature
    | .malformed => .ecdsaInvalidSignature
  | some _ => match verify digest q r s with
    | .valid => .success
    | .invalid => .ecdsaInvalidSignature
    | .malformed => .ecdsaInvalidSignature

end EcdsaDemo

namespace P256

/-! ## Correctness of modular exponentiation -/

theorem powmodAux_lt (fuel m base e acc : Nat) (hm : 0 < m) (hacc : acc < m) :
    powmodAux fuel m base e acc < m := by
  induction fuel generalizing base e acc with
  | zero => exact hacc
  | succ fuel ih =>
    rw [powmodAux]
    split
    · exact hacc
    · apply ih
      split
      · exact Nat.mod_lt _ hm
      · exact hacc

theorem powmodAux_eq (fuel : Nat) (m : Nat) (hm : 0 < m) :
    ∀ base e acc, e < 2 ^ fuel → acc < m →
      powmodAux fuel m base e acc = acc * base ^ e % m := by
  induction fuel with
  | zero =>
    intro base e acc he hacc
    interval_cases e
    simp [powmodAux, Nat.mod_eq_of_lt hacc]
  | succ fuel ih =>
    intro base e acc he hacc
    rw [powmodAux]
    by_cases he0 : e = 0
    · subst he0
      simp [Nat.mod_eq_of_lt hacc]
    · simp only [he0, if_false]
      have hdiv : e / 2 < 2 ^ fuel := by
        rw [Nat.div_lt_iff_lt_mul (by norm_num)]
        calc e < 2 ^ (fuel + 1) := he
        _ = 2 ^ fuel * 2 := by ring
      have hacc2 : (if e % 2 = 1 then acc * base % m else acc) < m := by
        split
        · exact Nat.mod_lt _ hm
        · exact hacc
      rw [ih _ _ _ hdiv hacc2]
      have hmm : base * base % m ≡ base * base [MOD m] := Nat.mod_modEq _ _
      have h1 : (if e % 2 = 1 then acc * base % m else acc) * (base * base % m) ^ (e / 2)
          ≡ acc * base ^ (e % 2) * (base * base) ^ (e / 2) [MOD m] := by
        apply Nat.ModEq.mul
        · split
          next h => rw [h, pow_one]; exact Nat.mod_modEq _ _
          next h =>
            have : e % 2 = 0 := by omega
            rw [this, pow_zero, mul_one]
        · exact hmm.pow _
      have h2 : acc * base ^ (e % 2) * (base * base) ^ (e / 2) = acc * base ^ e := by
        rw [← pow_two, ← pow_mul, mul_assoc, ← pow_add]
        congr 2
        omega
      rw [h2] at h1
      exact h1

theorem powmod_eq (base e m : Nat) (hm : 0 < m) : powmod base e m = base ^ e % m := by
  rw [powmod, powmodAux_eq e m hm _ _ _ (Nat.lt_two_pow e) (Nat.mod_lt _ hm)]
  calc (1 % m) * (base % m) ^ e % m
      = 1 * base ^ e % m := Nat.ModEq.mul ((Nat.mod_modEq _ _)) ((Nat.mod_modEq _ _).pow _)
    _ = base ^ e % m := by rw [one_mul]

theorem powmod_lt (base e m : Nat) (hm : 0 < m) : powmod base e m < m := by
  rw [powmod_eq _ _ _ hm]
  exact Nat.mod_lt _ hm

/-! ## Pratt primality certificates

The primality of the curve parameters p and n is established by the
Lucas test with explicit certificates: a witness of order q - 1 and the
prime factorization of q - 1, checked recursively. -/

theorem prime_of_pratt (q w : Nat) (ps : List (Nat × Nat)) (h2 : 2 ≤ q)
    (hq : ∀ r ∈ ps, Nat.Prime r.1)
    (hprod : (ps.map (fun re => re.1 ^ re.2)).prod = q - 1)
    (hw : powmod w (q - 1) q = 1)
    (hd : ∀ r ∈ ps, powmod w ((q - 1) / r.1) q ≠ 1) : Nat.Prime q := by
  have hq0 : 0 < q := by omega
  apply lucas_primality q (w : ZMod q)
  · have h1 : w ^ (q - 1) % q = 1 := by rw [← powmod_eq _ _ _ hq0]; exact hw
    have : (w : ZMod q) ^ (q - 1) = ((w ^ (q - 1) : Nat) : ZMod q) := by push_cast; ring
    rw [this]
    have hmod : w ^ (q - 1) ≡ 1 [MOD q] := by
      unfold Nat.ModEq
      rw [h1, Nat.mod_eq_of_lt (by omega)]
    have := (ZMod.natCast_eq_natCast_iff _ _ _).mpr hmod
    simpa using this
  · intro r hr hrdvd
    have hrps : ∃ s ∈ ps, r = s.1 := by
      rw [← hprod] at hrdvd
      rcases (Nat.Prime.prime hr).dvd_prod_iff.mp hrdvd with ⟨x, hx, hrx⟩
      rcases List.mem_map.mp hx with ⟨s, hs, rfl⟩
      refine ⟨s, hs, ?_⟩
      have := (Nat.Prime.prime hr).dvd_of_dvd_pow hrx
      exact ((Nat.prime_dvd_prime_iff_eq hr (hq s hs)).mp this)
    rcases hrps with ⟨s, hs, rfl⟩
    intro hcon
    apply hd s hs
    have h1 : (((w ^ ((q - 1) / s.1)) : Nat) : ZMod q) = ((1 : Nat) : ZMod q) := by
      push_cast
      rw [← hcon]
    have hmod := (ZMod.natCast_eq_natCast_iff _ _ _).mp h1
    unfold Nat.ModEq at hmod
    have hone : 1 % q = 1 := Nat.mod_eq_of_lt (by omega)
    rw [hone] at hmod
    rw [powmod_eq _ _ _ hq0]
    exact hmod

/-- Helper for building the prime-factor-list hypothesis of a Pratt
certificate. -/
theorem prattNil : ∀ r ∈ ([] : List (Nat × Nat)), Nat.Prime r.1 := by
  intro r hr
  exact absurd hr (List.not_mem_nil r)

/-- Cons step for the prime-factor-list hypothesis of a Pratt
certificate. -/
theorem prattCons (q e : Nat) (ps : List (Nat × Nat)) (h : Nat.Prime q)
    (hs : ∀ r ∈ ps, Nat.Prime r.1) : ∀ r ∈ ((q, e) :: ps), Nat.Prime r.1 := by
  intro r hr
  rcases List.mem_cons.mp hr with rfl | hr
  · exact h
  · exact hs r hr

end P256


namespace P256

/-- Primality of the small factor 2. -/
theorem prime_2 : Nat.Prime 2 := by norm_num

/-- Primality of the small factor 3. -/
theorem prime_3 : Nat.Prime 3 := by norm_num

/-- Primality of the small factor 5. -/
theorem prime_5 : Nat.Prime 5 := by norm_num

/-- Primality of the small factor 17. -/
theorem prime_17 : Nat.Prime 17 := by norm_num

/-- Pratt certificate for 257. -/
theorem prime_257 : Nat.Prime 257 :=
prime_of_pratt 257 3 [(2, 8)] (by decide)
  (prattCons 2 8 _ prime_2 <|
    prattNil)
  (by decide) (by decide) (by decide)

/-- Pratt certificate for 641. -/
theorem prime_641 : Nat.Prime 641 :=
prime_of_pratt 641 3 [(2, 7), (5, 1)] (by decide)
  (prattCons 2 7 _ prime_2 <|
    prattCons 5 1 _ prime_5 <|
    prattNil)
  (by decide) (by decide) (by decide)

/-- Pratt certificate for 1531. -/
theorem prime_1531 : Nat.Prime 1531 :=
prime_of_pratt 1531 2 [(2, 1), (3, 2), (5, 1), (17, 1)] (by decide)
  (prattCons 2 1 _ prime_2 <|
    prattCons 3 2 _ prime_3 <|
    prattCons 5 1 _ prime_5 <|
    prattCons 17 1 _ prime_17 <|
    prattNil)
  (by decide) (by decide) (by decide)

/-- Pratt certificate for 65537. -/
theorem prime_65537 : Nat.Prime 65537 :=
prime_of_pratt 65537 3 [(2, 16)] (by decide)
  (prattCons 2 16 _ prime_2 <|
    prattNil)
  (by decide) (by decide) (by decide)

/-- Primality of the small factor 7. -/
theorem prime_7 : Nat.Prime 7 := by norm_num

/-- Primality of the small factor 53. -/
theorem prime_53 : Nat.Prime 53 := by norm_num

/-- Primality of the small factor 11. -/
theorem prime_11 : Nat.Prime 11 := by norm_num

/-- Pratt certificate for 661. -/
theorem prime_661 : Nat.Prime 661 :=
prime_of_pratt 661 2 [(2, 2), (3, 1), (5, 1), (11, 1)] (by decide)
  (prattCons 2 2 _ prime_2 <|
    prattCons 3 1 _ prime_3 <|
    prattCons 5 1 _ prime_5 <|
    prattCons 11 1 _ prime_11 <|
    prattNil)
  (by decide) (by decide) (by decide)

/-- Pratt certificate for 490463. -/
theorem prime_490463 : Nat.Prime 490463 :=
prime_of_pratt 490463 14 [(2, 1), (7, 1), (53, 1), (661, 1)] (by decide)
  (prattCons 2 1 _ prime_2 <|
    prattCons 7 1 _ prime_7 <|
    prattCons 53 1 _ prime_53 <|
    prattCons 661 1 _ prime_661 <|
    prattNil)
  (by decide) (by decide) (by decide)

/-- Pratt certificate for 727. -/
theorem prime_727 : Nat.Prime 727 :=
prime_of_pratt 727 5 [(2, 1), (3, 1), (11, 2)] (by decide)
  (prattCons 2 1 _ prime_2 <|
    prattCons 3 1 _ prime_3 <|
    prattCons 11 2 _ prime_11 <|
    prattNil)
  (by decide) (by decide) (by decide)

/-- Pratt certificate for 17449. -/
theorem prime_17449 : Nat.Prime 17449 :=
prime_of_pratt 17449 14 [(2, 3), (3, 1), (727, 1)] (by decide)
  (prattCons 2 3 _ prime_2 <|
    prattCons 3 1 _ prime_3 <|
    prattCons 727 1 _ prime_727 <|
    prattNil)
  (by decide) (by decide) (by decide)

/-- Pratt certificate for 6700417. -/
theorem prime_6700417 : Nat.Prime 6700417 :=
prime_of_pratt 6700417 5 [(2, 7), (3, 1), (17449, 1)] (by decide)
  (prattCons 2 7 _ prime_2 <|
    prattCons 3 1 _ prime_3 <|
    prattCons 17449 1 _ prime_17449 <|
    prattNil)
  (by decide) (by decide) (by decide)

/-- Pratt certificate for 241. -/
theorem prime_241 : Nat.Prime 241 :=
prime_of_pratt 241 7 [(2, 4), (3, 1), (5, 1)] (by decide)
  (prattCons 2 4 _ prime_2 <|
    prattCons 3 1 _ prime_3 <|
    prattCons 5 1 _ prime_5 <|
    prattNil)
  (by decide) (by decide) (by decide)

/-- Pratt certificate for 2411. -/
theorem prime_2411 : Nat.Prime 2411 :=
prime_of_pratt 2411 6 [(2, 1), (5, 1), (241, 1)] (by decide)
  (prattCons 2 1 _ prime_2 <|
    prattCons 5 1 _ prime_5 <|
    prattCons 241 1 _ prime_241 <|
    prattNil)
  (by decide) (by decide) (by decide)

/-- Primality of the small factor 23. -/
theorem prime_23 : Nat.Prime 23 := by norm_num

/-- Pratt certificate for 107. -/
theorem prime_107 : Nat.Prime 107 :=
prime_of_pratt 107 2 [(2, 1), (53, 1)] (by decide)
  (prattCons 2 1 _ prime_2 <|
    prattCons 53 1 _ prime_53 <|
    prattNil)
  (by decide) (by decide) (by decide)

/-- Primality of the small factor 13. -/
theorem prime_13 : Nat.Prime 13 := by norm_num

/-- Pratt certificate for 157. -/
theorem prime_157 : Nat.Prime 157 :=
prime_of_pratt 157 5 [(2, 2), (3, 1), (13, 1)] (by decide)
  (prattCons 2 2 _ prime_2 <|
    prattCons 3 1 _ prime_3 <|
    prattCons 13 1 _ prime_13 <|
    prattNil)
  (by decide) (by decide) (by decide)

/-- Pratt certificate for 3769. -/
theorem prime_3769 : Nat.Prime 3769 :=
prime_of_pratt 3769 7 [(2, 3), (3, 1), (157, 1)] (by decide)
  (prattCons 2 3 _ prime_2 <|
    prattCons 3 1 _ prime_3 <|
    prattCons 157 1 _ prime_157 <|
    prattNil)
  (by decide) (by decide) (by decide)

/-- Pratt certificate for 204061199. -/
theorem prime_204061199 : Nat.Prime 204061199 :=
prime_of_pratt 204061199 11 [(2, 1), (11, 1), (23, 1), (107, 1), (3769, 1)] (by decide)
  (prattCons 2 1 _ prime_2 <|
    prattCons 11 1 _ prime_11 <|
    prattCons 23 1 _ prime_23 <|
    prattCons 107 1 _ prime_107 <|
    prattCons 3769 1 _ prime_3769 <|
    prattNil)
  (by decide) (by decide) (by decide)

/-- Pratt certificate for 34282281433. -/
theorem prime_34282281433 : Nat.Prime 34282281433 :=
prime_of_pratt 34282281433 17 [(2, 3), (3, 1), (7, 1), (204061199, 1)] (by decide)
  (prattCons 2 3 _ prime_2 <|
    prattCons 3 1 _ prime_3 <|
    prattCons 7 1 _ prime_7 <|
    prattCons 204061199 1 _ prime_204061199 <|
    prattNil)
  (by decide) (by decide) (by decide)

/-- Primality of the small factor 43. -/
theorem prime_43 : Nat.Prime 43 := by norm_num

/-- Pratt certificate for 173. -/
theorem prime_173 : Nat.Prime 173 :=
prime_of_pratt 173 2 [(2, 2), (43, 1)] (by decide)
  (prattCons 2 2 _ prime_2 <|
    prattCons 43 1 _ prime_43 <|
    prattNil)
  (by decide) (by decide) (by decide)

/-- Pratt certificate for 197. -/
theorem prime_197 : Nat.Prime 197 :=
prime_of_pratt 197 2 [(2, 2), (7, 2)] (by decide)
  (prattCons 2 2 _ prime_2 <|
    prattCons 7 2 _ prime_7 <|
    prattNil)
  (by decide) (by decide) (by decide)

/-- Pratt certificate for 919. -/
theorem prime_919 : Nat.Prime 919 :=
prime_of_pratt 919 7 [(2, 1), (3, 3), (17, 1)] (by decide)
  (prattCons 2 1 _ prime_2 <|
    prattCons 3 3 _ prime_3 <|
    prattCons 17 1 _ prime_17 <|
    prattNil)
  (by decide) (by decide) (by decide)

/-- Pratt certificate for 3677. -/
theorem prime_3677 : Nat.Prime 3677 :=
prime_of_pratt 3677 2 [(2, 2), (919, 1)] (by decide)
  (prattCons 2 2 _ prime_2 <|
    prattCons 919 1 _ prime_919 <|
    prattNil)
  (by decide) (by decide) (by decide)

/-- Pratt certificate for 66417393611. -/
theorem prime_66417393611 : Nat.Prime 66417393611 :=
prime_of_pratt 66417393611 6 [(2, 1), (5, 1), (53, 1), (173, 1), (197, 1), (3677, 1)] (by decide)
  (prattCons 2 1 _ prime_2 <|
    prattCons 5 1 _ prime_5 <|
    prattCons 53 1 _ prime_53 <|
    prattCons 173 1 _ prime_173 <|
    prattCons 197 1 _ prime_197 <|
    prattCons 3677 1 _ prime_3677 <|
    prattNil)
  (by decide) (by decide) (by decide)

/-- Pratt certificate for 11290956913871. -/
theorem prime_11290956913871 : Nat.Prime 11290956913871 :=
prime_of_pratt 11290956913871 13 [(2, 1), (5, 1), (17, 1), (66417393611, 1)] (by decide)
  (prattCons 2 1 _ prime_2 <|
    prattCons 5 1 _ prime_5 <|
    prattCons 17 1 _ prime_17 <|
    prattCons 66417393611 1 _ prime_66417393611 <|
    prattNil)
  (by decide) (by decide) (by decide)

/-- Pratt certificate for 757. -/
theorem prime_757 : Nat.Prime 757 :=
prime_of_pratt 757 2 [(2, 2), (3, 3), (7, 1)] (by decide)
  (prattCons 2 2 _ prime_2 <|
    prattCons 3 3 _ prime_3 <|
    prattCons 7 1 _ prime_7 <|
    prattNil)
  (by decide) (by decide) (by decide)

/-- Pratt certificate for 18169. -/
theorem prime_18169 : Nat.Prime 18169 :=
prime_of_pratt 18169 11 [(2, 3), (3, 1), (757, 1)] (by decide)
  (prattCons 2 3 _ prime_2 <|
    prattCons 3 1 _ prime_3 <|
    prattCons 757 1 _ prime_757 <|
    prattNil)
  (by decide) (by decide) (by decide)

/-- Pratt certificate for 181. -/
theorem prime_181 : Nat.Prime 181 :=
prime_of_pratt 181 2 [(2, 2), (3, 2), (5, 1)] (by decide)
  (prattCons 2 2 _ prime_2 <|
    prattCons 3 2 _ prime_3 <|
    prattCons 5 1 _ prime_5 <|
    prattNil)
  (by decide) (by decide) (by decide)

/-- Pratt certificate for 1087. -/
theorem prime_1087 : Nat.Prime 1087 :=
prime_of_pratt 1087 3 [(2, 1), (3, 1), (181, 1)] (by decide)
  (prattCons 2 1 _ prime_2 <|
    prattCons 3 1 _ prime_3 <|
    prattCons 181 1 _ prime_181 <|
    prattNil)
  (by decide) (by decide) (by decide)

/-- Pratt certificate for 4349. -/
theorem prime_4349 : Nat.Prime 4349 :=
prime_of_pratt 4349 2 [(2, 2), (1087, 1)] (by decide)
  (prattCons 2 2 _ prime_2 <|
    prattCons 1087 1 _ prime_1087 <|
    prattNil)
  (by decide) (by decide) (by decide)

/-- Pratt certificate for 78283. -/
theorem prime_78283 : Nat.Prime 78283 :=
prime_of_pratt 78283 3 [(2, 1), (3, 2), (4349, 1)] (by decide)
  (prattCons 2 1 _ prime_2 <|
    prattCons 3 2 _ prime_3 <|
    prattCons 4349 1 _ prime_4349 <|
    prattNil)
  (by decide) (by decide) (by decide)

/-- Pratt certificate for 313. -/
theorem prime_313 : Nat.Prime 313 :=
prime_of_pratt 313 10 [(2, 3), (3, 1), (13, 1)] (by decide)
  (prattCons 2 3 _ prime_2 <|
    prattCons 3 1 _ prime_3 <|
    prattCons 13 1 _ prime_13 <|
    prattNil)
  (by decide) (by decide) (by decide)

/-- Pratt certificate for 704251. -/
theorem prime_704251 : Nat.Prime 704251 :=
prime_of_pratt 704251 2 [(2, 1), (3, 2), (5, 3), (313, 1)] (by decide)
  (prattCons 2 1 _ prime_2 <|
    prattCons 3 2 _ prime_3 <|
    prattCons 5 3 _ prime_5 <|
    prattCons 313 1 _ prime_313 <|
    prattNil)
  (by decide) (by decide) (by decide)

/-- Pratt certificate for 46076956964474543. -/
theorem prime_46076956964474543 : Nat.Prime 46076956964474543 :=
prime_of_pratt 46076956964474543 5 [(2, 1), (23, 1), (18169, 1), (78283, 1), (704251, 1)] (by decide)
  (prattCons 2 1 _ prime_2 <|
    prattCons 23 1 _ prime_23 <|
    prattCons 18169 1 _ prime_18169 <|
    prattCons 78283 1 _ prime_78283 <|
    prattCons 704251 1 _ prime_704251 <|
    prattNil)
  (by decide) (by decide) (by decide)

/-- Pratt certificate for 774023187263532362759620327192479577272145303. -/
theorem prime_774023187263532362759620327192479577272145303 : Nat.Prime 774023187263532362759620327192479577272145303 :=
prime_of_pratt 774023187263532362759620327192479577272145303 3 [(2, 1), (3, 2), (2411, 1), (34282281433, 1), (11290956913871, 1), (46076956964474543, 1)] (by decide)
  (prattCons 2 1 _ prime_2 <|
    prattCons 3 2 _ prime_3 <|
    prattCons 2411 1 _ prime_2411 <|
    prattCons 34282281433 1 _ prime_34282281433 <|
    prattCons 11290956913871 1 _ prime_11290956913871 <|
    prattCons 46076956964474543 1 _ prime_46076956964474543 <|
    prattNil)
  (by decide) (by decide) (by decide)

/-- Pratt certificate for 835945042244614951780389953367877943453916927241. -/
theorem prime_835945042244614951780389953367877943453916927241 : Nat.Prime 835945042244614951780389953367877943453916927241 :=
prime_of_pratt 835945042244614951780389953367877943453916927241 11 [(2, 3), (3, 3), (5, 1), (774023187263532362759620327192479577272145303, 1)] (by decide)
  (prattCons 2 3 _ prime_2 <|
    prattCons 3 3 _ prime_3 <|
    prattCons 5 1 _ prime_5 <|
    prattCons 774023187263532362759620327192479577272145303 1 _ prime_774023187263532362759620327192479577272145303 <|
    prattNil)
  (by decide) (by decide) (by decide)

/-- Pratt certificate for 115792089210356248762697446949407573530086143415290314195533631308867097853951. -/
theorem p_prime : Nat.Prime P256.p :=
prime_of_pratt P256.p 6 [(2, 1), (3, 1), (5, 2), (17, 1), (257, 1), (641, 1), (1531, 1), (65537, 1), (490463, 1), (6700417, 1), (835945042244614951780389953367877943453916927241, 1)] (by decide)
  (prattCons 2 1 _ prime_2 <|
    prattCons 3 1 _ prime_3 <|
    prattCons 5 2 _ prime_5 <|
    prattCons 17 1 _ prime_17 <|
    prattCons 257 1 _ prime_257 <|
    prattCons 641 1 _ prime_641 <|
    prattCons 1531 1 _ prime_1531 <|
    prattCons 65537 1 _ prime_65537 <|
    prattCons 490463 1 _ prime_490463 <|
    prattCons 6700417 1 _ prime_6700417 <|
    prattCons 835945042244614951780389953367877943453916927241 1 _ prime_835945042244614951780389953367877943453916927241 <|
    prattNil)
  (by decide) (by decide) (by decide)

/-- Primality of the small factor 71. -/
theorem prime_71 : Nat.Prime 71 := by norm_num

/-- Pratt certificate for 131. -/
theorem prime_131 : Nat.Prime 131 :=
prime_of_pratt 131 2 [(2, 1), (5, 1), (13, 1)] (by decide)
  (prattCons 2 1 _ prime_2 <|
    prattCons 5 1 _ prime_5 <|
    prattCons 13 1 _ prime_13 <|
    prattNil)
  (by decide) (by decide) (by decide)

/-- Primality of the small factor 31. -/
theorem prime_31 : Nat.Prime 31 := by norm_num

/-- Pratt certificate for 373. -/
theorem prime_373 : Nat.Prime 373 :=
prime_of_pratt 373 2 [(2, 2), (3, 1), (31, 1)] (by decide)
  (prattCons 2 2 _ prime_2 <|
    prattCons 3 1 _ prime_3 <|
    prattCons 31 1 _ prime_31 <|
    prattNil)
  (by decide) (by decide) (by decide)

/-- Pratt certificate for 3407. -/
theorem prime_3407 : Nat.Prime 3407 :=
prime_of_pratt 3407 5 [(2, 1), (13, 1), (131, 1)] (by decide)
  (prattCons 2 1 _ prime_2 <|
    prattCons 13 1 _ prime_13 <|
    prattCons 131 1 _ prime_131 <|
    prattNil)
  (by decide) (by decide) (by decide)

/-- Primality of the small factor 37. -/
theorem prime_37 : Nat.Prime 37 := by norm_num

/-- Pratt certificate for 9547. -/
theorem prime_9547 : Nat.Prime 9547 :=
prime_of_pratt 9547 2 [(2, 1), (3, 1), (37, 1), (43, 1)] (by decide)
  (prattCons 2 1 _ prime_2 <|
    prattCons 3 1 _ prime_3 <|
    prattCons 37 1 _ prime_37 <|
    prattCons 43 1 _ prime_43 <|
    prattNil)
  (by decide) (by decide) (by decide)

/-- Pratt certificate for 38189. -/
theorem prime_38189 : Nat.Prime 38189 :=
prime_of_pratt 38189 2 [(2, 2), (9547, 1)] (by decide)
  (prattCons 2 2 _ prime_2 <|
    prattCons 9547 1 _ prime_9547 <|
    prattNil)
  (by decide) (by decide) (by decide)

/-- Primality of the small factor 19. -/
theorem prime_19 : Nat.Prime 19 := by norm_num

/-- Pratt certificate for 229. -/
theorem prime_229 : Nat.Prime 229 :=
prime_of_pratt 229 6 [(2, 2), (3, 1), (19, 1)] (by decide)
  (prattCons 2 2 _ prime_2 <|
    prattCons 3 1 _ prime_3 <|
    prattCons 19 1 _ prime_19 <|
    prattNil)
  (by decide) (by decide) (by decide)

/-- Pratt certificate for 1201. -/
theorem prime_1201 : Nat.Prime 1201 :=
prime_of_pratt 1201 11 [(2, 4), (3, 1), (5, 2)] (by decide)
  (prattCons 2 4 _ prime_2 <|
    prattCons 3 1 _ prime_3 <|
    prattCons 5 2 _ prime_5 <|
    prattNil)
  (by decide) (by decide) (by decide)

/-- Pratt certificate for 9350987. -/
theorem prime_9350987 : Nat.Prime 9350987 :=
prime_of_pratt 9350987 2 [(2, 1), (17, 1), (229, 1), (1201, 1)] (by decide)
  (prattCons 2 1 _ prime_2 <|
    prattCons 17 1 _ prime_17 <|
    prattCons 229 1 _ prime_229 <|
    prattCons 1201 1 _ prime_1201 <|
    prattNil)
  (by decide) (by decide) (by decide)

/-- Pratt certificate for 187019741. -/
theorem prime_187019741 : Nat.Prime 187019741 :=
prime_of_pratt 187019741 2 [(2, 2), (5, 1), (9350987, 1)] (by decide)
  (prattCons 2 2 _ prime_2 <|
    prattCons 5 1 _ prime_5 <|
    prattCons 9350987 1 _ prime_9350987 <|
    prattNil)
  (by decide) (by decide) (by decide)

/-- Primality of the small factor 29. -/
theorem prime_29 : Nat.Prime 29 := by norm_num

/-- Pratt certificate for 311. -/
theorem prime_311 : Nat.Prime 311 :=
prime_of_pratt 311 17 [(2, 1), (5, 1), (31, 1)] (by decide)
  (prattCons 2 1 _ prime_2 <|
    prattCons 5 1 _ prime_5 <|
    prattCons 31 1 _ prime_31 <|
    prattNil)
  (by decide) (by decide) (by decide)

/-- Pratt certificate for 311245691. -/
theorem prime_311245691 : Nat.Prime 311245691 :=
prime_of_pratt 311245691 2 [(2, 1), (5, 1), (7, 1), (17, 1), (29, 2), (311, 1)] (by decide)
  (prattCons 2 1 _ prime_2 <|
    prattCons 5 1 _ prime_5 <|
    prattCons 7 1 _ prime_7 <|
    prattCons 17 1 _ prime_17 <|
    prattCons 29 2 _ prime_29 <|
    prattCons 311 1 _ prime_311 <|
    prattNil)
  (by decide) (by decide) (by decide)

/-- Pratt certificate for 622491383. -/
theorem prime_622491383 : Nat.Prime 622491383 :=
prime_of_pratt 622491383 5 [(2, 1), (311245691, 1)] (by decide)
  (prattCons 2 1 _ prime_2 <|
    prattCons 311245691 1 _ prime_311245691 <|
    prattNil)
  (by decide) (by decide) (by decide)

/-- Pratt certificate for 263. -/
theorem prime_263 : Nat.Prime 263 :=
prime_of_pratt 263 5 [(2, 1), (131, 1)] (by decide)
  (prattCons 2 1 _ prime_2 <|
    prattCons 131 1 _ prime_131 <|
    prattNil)
  (by decide) (by decide) (by decide)

/-- Pratt certificate for 126241. -/
theorem prime_126241 : Nat.Prime 126241 :=
prime_of_pratt 126241 7 [(2, 5), (3, 1), (5, 1), (263, 1)] (by decide)
  (prattCons 2 5 _ prime_2 <|
    prattCons 3 1 _ prime_3 <|
    prattCons 5 1 _ prime_5 <|
    prattCons 263 1 _ prime_263 <|
    prattNil)
  (by decide) (by decide) (by decide)

/-- Pratt certificate for 337. -/
theorem prime_337 : Nat.Prime 337 :=
prime_of_pratt 337 10 [(2, 4), (3, 1), (7, 1)] (by decide)
  (prattCons 2 4 _ prime_2 <|
    prattCons 3 1 _ prime_3 <|
    prattCons 7 1 _ prime_7 <|
    prattNil)
  (by decide) (by decide) (by decide)

/-- Pratt certificate for 104471. -/
theorem prime_104471 : Nat.Prime 104471 :=
prime_of_pratt 104471 11 [(2, 1), (5, 1), (31, 1), (337, 1)] (by decide)
  (prattCons 2 1 _ prime_2 <|
    prattCons 5 1 _ prime_5 <|
    prattCons 31 1 _ prime_31 <|
    prattCons 337 1 _ prime_337 <|
    prattNil)
  (by decide) (by decide) (by decide)

/-- Pratt certificate for 3969899. -/
theorem prime_3969899 : Nat.Prime 3969899 :=
prime_of_pratt 3969899 2 [(2, 1), (19, 1), (104471, 1)] (by decide)
  (prattCons 2 1 _ prime_2 <|
    prattCons 19 1 _ prime_19 <|
    prattCons 104471 1 _ prime_104471 <|
    prattNil)
  (by decide) (by decide) (by decide)

/-- Pratt certificate for 1002328039319. -/
theorem prime_1002328039319 : Nat.Prime 1002328039319 :=
prime_of_pratt 1002328039319 19 [(2, 1), (126241, 1), (3969899, 1)] (by decide)
  (prattCons 2 1 _ prime_2 <|
    prattCons 126241 1 _ prime_126241 <|
    prattCons 3969899 1 _ prime_3969899 <|
    prattNil)
  (by decide) (by decide) (by decide)

/-- Pratt certificate for 1297. -/
theorem prime_1297 : Nat.Prime 1297 :=
prime_of_pratt 1297 10 [(2, 4), (3, 4)] (by decide)
  (prattCons 2 4 _ prime_2 <|
    prattCons 3 4 _ prime_3 <|
    prattNil)
  (by decide) (by decide) (by decide)

/-- Primality of the small factor 97. -/
theorem prime_97 : Nat.Prime 97 := by norm_num

/-- Pratt certificate for 16879. -/
theorem prime_16879 : Nat.Prime 16879 :=
prime_of_pratt 16879 3 [(2, 1), (3, 1), (29, 1), (97, 1)] (by decide)
  (prattCons 2 1 _ prime_2 <|
    prattCons 3 1 _ prime_3 <|
    prattCons 29 1 _ prime_29 <|
    prattCons 97 1 _ prime_97 <|
    prattNil)
  (by decide) (by decide) (by decide)

/-- Pratt certificate for 127. -/
theorem prime_127 : Nat.Prime 127 :=
prime_of_pratt 127 3 [(2, 1), (3, 2), (7, 1)] (by decide)
  (prattCons 2 1 _ prime_2 <|
    prattCons 3 2 _ prime_3 <|
    prattCons 7 1 _ prime_7 <|
    prattNil)
  (by decide) (by decide) (by decide)

/-- Pratt certificate for 151. -/
theorem prime_151 : Nat.Prime 151 :=
prime_of_pratt 151 6 [(2, 1), (3, 1), (5, 2)] (by decide)
  (prattCons 2 1 _ prime_2 <|
    prattCons 3 1 _ prime_3 <|
    prattCons 5 2 _ prime_5 <|
    prattNil)
  (by decide) (by decide) (by decide)

/-- Pratt certificate for 1511. -/
theorem prime_1511 : Nat.Prime 1511 :=
prime_of_pratt 1511 11 [(2, 1), (5, 1), (151, 1)] (by decide)
  (prattCons 2 1 _ prime_2 <|
    prattCons 5 1 _ prime_5 <|
    prattCons 151 1 _ prime_151 <|
    prattNil)
  (by decide) (by decide) (by decide)

/-- Pratt certificate for 3023. -/
theorem prime_3023 : Nat.Prime 3023 :=
prime_of_pratt 3023 5 [(2, 1), (1511, 1)] (by decide)
  (prattCons 2 1 _ prime_2 <|
    prattCons 1511 1 _ prime_1511 <|
    prattNil)
  (by decide) (by decide) (by decide)

/-- Primality of the small factor 41. -/
theorem prime_41 : Nat.Prime 41 := by norm_num

/-- Pratt certificate for 155317. -/
theorem prime_155317 : Nat.Prime 155317 :=
prime_of_pratt 155317 5 [(2, 2), (3, 1), (7, 1), (43, 2)] (by decide)
  (prattCons 2 2 _ prime_2 <|
    prattCons 3 1 _ prime_3 <|
    prattCons 7 1 _ prime_7 <|
    prattCons 43 2 _ prime_43 <|
    prattNil)
  (by decide) (by decide) (by decide)

/-- Pratt certificate for 191039911. -/
theorem prime_191039911 : Nat.Prime 191039911 :=
prime_of_pratt 191039911 3 [(2, 1), (3, 1), (5, 1), (41, 1), (155317, 1)] (by decide)
  (prattCons 2 1 _ prime_2 <|
    prattCons 3 1 _ prime_3 <|
    prattCons 5 1 _ prime_5 <|
    prattCons 41 1 _ prime_41 <|
    prattCons 155317 1 _ prime_155317 <|
    prattNil)
  (by decide) (by decide) (by decide)

/-- Pratt certificate for 208150935158385979. -/
theorem prime_208150935158385979 : Nat.Prime 208150935158385979 :=
prime_of_pratt 208150935158385979 2 [(2, 1), (3, 1), (11, 1), (43, 1), (127, 1), (3023, 1), (191039911, 1)] (by decide)
  (prattCons 2 1 _ prime_2 <|
    prattCons 3 1 _ prime_3 <|
    prattCons 11 1 _ prime_11 <|
    prattCons 43 1 _ prime_43 <|
    prattCons 127 1 _ prime_127 <|
    prattCons 3023 1 _ prime_3023 <|
    prattCons 191039911 1 _ prime_191039911 <|
    prattNil)
  (by decide) (by decide) (by decide)

/-- Pratt certificate for 2624747550333869278416773953. -/
theorem prime_2624747550333869278416773953 : Nat.Prime 2624747550333869278416773953 :=
prime_of_pratt 2624747550333869278416773953 7 [(2, 6), (3, 2), (1297, 1), (16879, 1), (208150935158385979, 1)] (by decide)
  (prattCons 2 6 _ prime_2 <|
    prattCons 3 2 _ prime_3 <|
    prattCons 1297 1 _ prime_1297 <|
    prattCons 16879 1 _ prime_16879 <|
    prattCons 208150935158385979 1 _ prime_208150935158385979 <|
    prattNil)
  (by decide) (by decide) (by decide)

/-- Pratt certificate for 115792089210356248762697446949407573529996955224135760342422259061068512044369. -/
theorem n_prime : Nat.Prime P256.n :=
prime_of_pratt P256.n 7 [(2, 4), (3, 1), (71, 1), (131, 1), (373, 1), (3407, 1), (17449, 1), (38189, 1), (187019741, 1), (622491383, 1), (1002328039319, 1), (2624747550333869278416773953, 1)] (by decide)
  (prattCons 2 4 _ prime_2 <|
    prattCons 3 1 _ prime_3 <|
    prattCons 71 1 _ prime_71 <|
    prattCons 131 1 _ prime_131 <|
    prattCons 373 1 _ prime_373 <|
    prattCons 3407 1 _ prime_3407 <|
    prattCons 17449 1 _ prime_17449 <|
    prattCons 38189 1 _ prime_38189 <|
    prattCons 187019741 1 _ prime_187019741 <|
    prattCons 622491383 1 _ prime_622491383 <|
    prattCons 1002328039319 1 _ prime_1002328039319 <|
    prattCons 2624747550333869278416773953 1 _ prime_2624747550333869278416773953 <|
    prattNil)
  (by decide) (by decide) (by decide)

end P256

namespace P256

/-! ## The field and the Mathlib curve

The executable arithmetic is related to the nonsingular rational points
of the P-256 Weierstrass curve over ZMod p. -/

instance : Fact (Nat.Prime p) := ⟨p_prime⟩

instance : Fact (Nat.Prime n) := ⟨n_prime⟩

theorem p_pos : 0 < p := by decide

theorem n_pos : 0 < n := by decide

theorem p_gt_two : 2 < p := by decide

theorem n_gt_two : 2 < n := by decide

instance : NeZero p := ⟨by decide⟩

instance : NeZero n := ⟨by decide⟩

/-- The P-256 curve in Mathlib form over the prime field. -/
def W : WeierstrassCurve.Affine (ZMod p) :=
  { a₁ := 0, a₂ := 0, a₃ := 0, a₄ := (a : ZMod p), a₆ := (b : ZMod p) }

/-- The representation relation: an executable point stands for a
nonsingular rational point of the Mathlib curve when the coordinates
are reduced and cast to the same field elements. -/
def reps : Pt → W.Point → Prop
  | .inf, q => q = 0
  | .aff _ _, .zero => False
  | .aff x y, @WeierstrassCurve.Affine.Point.some _ _ _ x1 y1 _ =>
      x < p ∧ y < p ∧ (x : ZMod p) = x1 ∧ (y : ZMod p) = y1

theorem castNat_eq_iff {m : Nat} [NeZero m] {x y : Nat} (hx : x < m) (hy : y < m) :
    ((x : ZMod m) = (y : ZMod m)) ↔ x = y := by
  constructor
  · intro h
    have := congrArg ZMod.val h
    rwa [ZMod.val_cast_of_lt hx, ZMod.val_cast_of_lt hy] at this
  · intro h
    rw [h]

theorem castNat_eq_zero_iff {m : Nat} [NeZero m] {x : Nat} (hx : x < m) :
    ((x : ZMod m) = 0) ↔ x = 0 := by
  have h0 : 0 < m := Nat.pos_of_ne_zero (NeZero.ne m)
  have := castNat_eq_iff (m := m) hx h0
  simpa using this

theorem cast_pminus {x : Nat} (hx : x ≤ p) :
    ((p - x : Nat) : ZMod p) = -(x : ZMod p) := by
  rw [Nat.cast_sub hx, ZMod.natCast_self, zero_sub]

theorem two_ne_zero_p : (2 : ZMod p) ≠ 0 := by
  have hcast : ((2 : Nat) : ZMod p) = (2 : ZMod p) := by push_cast; rfl
  intro hcon
  rw [← hcast] at hcon
  have h2 := (castNat_eq_zero_iff (show (2 : Nat) < p by decide)).mp hcon
  exact absurd h2 (by norm_num)

theorem finv_lt (x : Nat) : finv x < p := powmod_lt _ _ _ p_pos

theorem cast_finv (x : Nat) (hx : (x : ZMod p) ≠ 0) :
    ((finv x : Nat) : ZMod p) = (x : ZMod p)⁻¹ := by
  rw [finv, powmod_eq _ _ _ p_pos, ZMod.natCast_mod]
  push_cast
  have h1 : (x : ZMod p) ^ (p - 1) = 1 := ZMod.pow_card_sub_one_eq_one hx
  have h2 : (x : ZMod p) ^ (p - 2) * (x : ZMod p) = 1 := by
    rw [← pow_succ]
    have h3 : p - 2 + 1 = p - 1 := by have := p_gt_two; omega
    rw [h3]
    exact h1
  exact eq_inv_of_mul_eq_one_left h2

theorem equation_exec {x y : Nat} :
    W.Equation (x : ZMod p) (y : ZMod p) ↔ y * y % p = (x * x * x + a * x + b) % p := by
  rw [WeierstrassCurve.Affine.equation_iff]
  have hW1 : W.a₁ = 0 := rfl
  have hW2 : W.a₂ = 0 := rfl
  have hW3 : W.a₃ = 0 := rfl
  have hW4 : W.a₄ = (a : ZMod p) := rfl
  have hW6 : W.a₆ = (b : ZMod p) := rfl
  rw [hW1, hW2, hW3, hW4, hW6]
  rw [show ((y : ZMod p) ^ 2 + 0 * ↑x * ↑y + 0 * ↑y = ↑x ^ 3 + 0 * ↑x ^ 2 + ↑a * ↑x + ↑b)
      ↔ ((y * y : Nat) : ZMod p) = ((x * x * x + a * x + b : Nat) : ZMod p) from by
    push_cast
    constructor
    · intro h; linear_combination h
    · intro h; linear_combination h]
  rw [ZMod.natCast_eq_natCast_iff]
  rfl

theorem W_Delta_ne : W.Δ ≠ 0 := by
  have heq : W.Δ = -(((64 * a ^ 3 + 432 * b ^ 2) % p : Nat) : ZMod p) := by
    show (WeierstrassCurve.mk 0 0 0 (a : ZMod p) (b : ZMod p)).Δ = _
    rw [WeierstrassCurve.Δ, WeierstrassCurve.b₂, WeierstrassCurve.b₄,
      WeierstrassCurve.b₆, WeierstrassCurve.b₈]
    rw [ZMod.natCast_mod]
    push_cast
    ring
  rw [heq, neg_ne_zero]
  have h1 : (64 * a ^ 3 + 432 * b ^ 2) % p < p := Nat.mod_lt _ p_pos
  have h2 : (64 * a ^ 3 + 432 * b ^ 2) % p ≠ 0 := by decide
  intro hcon
  exact absurd ((castNat_eq_zero_iff h1).mp hcon) h2

theorem nonsingular_exec {x y : Nat}
    (heq : y * y % p = (x * x * x + a * x + b) % p) :
    W.Nonsingular (x : ZMod p) (y : ZMod p) :=
  W.nonsingular_of_Δ_ne_zero (equation_exec.mpr heq) W_Delta_ne

/-- Nonsingularity of the base point. -/
theorem G_nonsingular : W.Nonsingular (Gx : ZMod p) (Gy : ZMod p) :=
  nonsingular_exec (by decide)

/-- The base point as a nonsingular rational point of the Mathlib
curve. -/
def Gpt : W.Point := WeierstrassCurve.Affine.Point.some G_nonsingular

theorem reps_inf {q : W.Point} (h : reps .inf q) : q = 0 := h

theorem reps_G : reps G Gpt := ⟨by decide, by decide, rfl, rfl⟩

end P256

namespace P256

/-! ## Matching the executable point operations with the curve group -/

theorem outX_lt (l x1 x2 : Nat) : outX l x1 x2 < p := Nat.mod_lt _ p_pos

theorem outY_lt (l x1 y1 x3 : Nat) : outY l x1 y1 x3 < p := Nat.mod_lt _ p_pos

theorem cast_outX (l x1 x2 : Nat) (hx1 : x1 ≤ p) (hx2 : x2 ≤ p) :
    ((outX l x1 x2 : Nat) : ZMod p) = (l : ZMod p) ^ 2 - x1 - x2 := by
  rw [outX, ZMod.natCast_mod]
  push_cast [cast_pminus hx1, cast_pminus hx2]
  ring

theorem cast_outY (l x1 y1 x3 : Nat) (hy1 : y1 ≤ p) (hx3 : x3 ≤ p) :
    ((outY l x1 y1 x3 : Nat) : ZMod p) =
      (l : ZMod p) * ((x1 : ZMod p) - x3) - y1 := by
  rw [outY, ZMod.natCast_mod]
  push_cast [ZMod.natCast_mod, cast_pminus hy1, cast_pminus hx3]
  ring

theorem cast_dblL (x y : Nat) (hyF : (y : ZMod p) ≠ 0) :
    ((dblL x y : Nat) : ZMod p) =
      (3 * (x : ZMod p) * x + a) / (2 * (y : ZMod p)) := by
  have h2y : ((2 * y % p : Nat) : ZMod p) = 2 * (y : ZMod p) := by
    rw [ZMod.natCast_mod]
    push_cast
    ring
  have h2yne : ((2 * y % p : Nat) : ZMod p) ≠ 0 := by
    rw [h2y]
    exact mul_ne_zero two_ne_zero_p hyF
  rw [dblL, ZMod.natCast_mod]
  push_cast [ZMod.natCast_mod]
  rw [cast_finv _ h2yne, h2y, div_eq_mul_inv]

theorem cast_addL (x1 y1 x2 y2 : Nat) (hy1 : y1 ≤ p) (hx1 : x1 ≤ p)
    (hne : (x2 : ZMod p) - (x1 : ZMod p) ≠ 0) :
    ((addL x1 y1 x2 y2 : Nat) : ZMod p) =
      ((y2 : ZMod p) - y1) / ((x2 : ZMod p) - x1) := by
  have hden : (((x2 + (p - x1)) % p : Nat) : ZMod p) = (x2 : ZMod p) - x1 := by
    rw [ZMod.natCast_mod]
    push_cast [cast_pminus hx1]
    ring
  have hdne : (((x2 + (p - x1)) % p : Nat) : ZMod p) ≠ 0 := by
    rw [hden]
    exact hne
  rw [addL, ZMod.natCast_mod]
  push_cast [ZMod.natCast_mod, cast_pminus hy1]
  rw [cast_finv _ hdne, hden, div_eq_mul_inv]
  ring

theorem negY_eq (x y : ZMod p) : W.negY x y = -y := by
  show -y - 0 * x - 0 = -y
  ring

theorem addX_eq (x1 x2 L : ZMod p) : W.addX x1 x2 L = L ^ 2 - x1 - x2 := by
  show L ^ 2 + 0 * L - 0 - x1 - x2 = _
  ring

theorem addY_eq (x1 x2 y1 L : ZMod p) :
    W.addY x1 x2 y1 L = L * (x1 - W.addX x1 x2 L) - y1 := by
  show -(L * (W.addX x1 x2 L - x1) + y1) - 0 * W.addX x1 x2 L - 0 = _
  ring

theorem slope_dbl_eq {x y : Nat} (hyne : (y : ZMod p) ≠ W.negY (x : ZMod p) (y : ZMod p)) :
    W.slope (x : ZMod p) (x : ZMod p) (y : ZMod p) (y : ZMod p)
      = (3 * (x : ZMod p) * x + a) / (2 * (y : ZMod p)) := by
  have hW1 : W.a₁ = 0 := rfl
  have hW2 : W.a₂ = 0 := rfl
  have hW4 : W.a₄ = (a : ZMod p) := rfl
  rw [WeierstrassCurve.Affine.slope_of_Y_ne rfl hyne, negY_eq, hW1, hW2, hW4]
  rw [show (3 * (x : ZMod p) ^ 2 + 2 * 0 * (x : ZMod p) + (a : ZMod p) - 0 * (y : ZMod p))
      = 3 * (x : ZMod p) * x + a from by ring]
  rw [show ((y : ZMod p) - -(y : ZMod p)) = 2 * (y : ZMod p) from by ring]

theorem slope_add_eq {x1 x2 y1 y2 : ZMod p} (hne : x1 ≠ x2) :
    W.slope x1 x2 y1 y2 = (y2 - y1) / (x2 - x1) := by
  rw [WeierstrassCurve.Affine.slope_of_X_ne hne,
    show (y1 - y2) = -(y2 - y1) from by ring,
    show (x1 - x2) = -(x2 - x1) from by ring, neg_div_neg_eq]

theorem reps_double {P : Pt} {P1 : W.Point} (h : reps P P1) :
    reps (pointDouble P) (P1 + P1) := by
  cases P with
  | inf =>
    have h0 : P1 = 0 := reps_inf h
    subst h0
    show (0 : W.Point) + 0 = 0
    exact add_zero 0
  | aff x y =>
    cases P1 with
    | zero => exact h.elim
    | @some X Y hns =>
      obtain ⟨hx, hy, hcx, hcy⟩ := h
      subst hcx
      subst hcy
      by_cases hy0 : y = 0
      · subst hy0
        have hyeq : ((0 : Nat) : ZMod p) = W.negY (x : ZMod p) ((0 : Nat) : ZMod p) := by
          rw [negY_eq]
          push_cast
          ring
        rw [WeierstrassCurve.Affine.Point.add_self_of_Y_eq hyeq]
        exact rfl
      · have hyF : (y : ZMod p) ≠ 0 := fun hc => hy0 ((castNat_eq_zero_iff hy).mp hc)
        have hyne : (y : ZMod p) ≠ W.negY (x : ZMod p) (y : ZMod p) := by
          rw [negY_eq]
          intro hc
          have h2 : (2 : ZMod p) * y = 0 := by linear_combination hc
          rcases mul_eq_zero.mp h2 with hcc | hcc
          · exact two_ne_zero_p hcc
          · exact hyF hcc
        rw [WeierstrassCurve.Affine.Point.add_self_of_Y_ne hyne]
        simp only [pointDouble]
        rw [if_neg hy0]
        show reps (Pt.aff (outX (dblL x y) x x)
          (outY (dblL x y) x y (outX (dblL x y) x x))) _
        refine ⟨outX_lt _ _ _, outY_lt _ _ _ _, ?_, ?_⟩
        · rw [cast_outX _ _ _ (le_of_lt hx) (le_of_lt hx), cast_dblL x y hyF,
            addX_eq, slope_dbl_eq hyne]
        · rw [cast_outY _ _ _ _ (le_of_lt hy) (le_of_lt (outX_lt _ _ _)),
            cast_outX _ _ _ (le_of_lt hx) (le_of_lt hx), cast_dblL x y hyF,
            addY_eq, addX_eq, slope_dbl_eq hyne]

theorem reps_add {P Q : Pt} {P1 Q1 : W.Point} (hP : reps P P1) (hQ : reps Q Q1) :
    reps (pointAdd P Q) (P1 + Q1) := by
  cases P with
  | inf =>
    have h0 : P1 = 0 := reps_inf hP
    subst h0
    rw [zero_add]
    cases Q <;> exact hQ
  | aff px py =>
    cases Q with
    | inf =>
      have h0 : Q1 = 0 := reps_inf hQ
      subst h0
      rw [add_zero]
      exact hP
    | aff qx qy =>
      cases P1 with
      | zero => exact hP.elim
      | @some X1 Y1 h1 =>
        cases Q1 with
        | zero => exact hQ.elim
        | @some X2 Y2 h2 =>
          obtain ⟨hpx, hpy, hcx1, hcy1⟩ := hP
          obtain ⟨hqx, hqy, hcx2, hcy2⟩ := hQ
          subst hcx1
          subst hcy1
          subst hcx2
          subst hcy2
          by_cases hxeq : px = qx
          · subst hxeq
            by_cases hs : (py + qy) % p = 0
            · have hyeq : (py : ZMod p) = W.negY (px : ZMod p) (qy : ZMod p) := by
                rw [negY_eq]
                have hcast : (((py + qy) % p : Nat) : ZMod p) = 0 := by
                  rw [hs]
                  exact Nat.cast_zero
                rw [ZMod.natCast_mod] at hcast
                push_cast at hcast
                linear_combination hcast
              rw [WeierstrassCurve.Affine.Point.add_of_Y_eq rfl hyeq]
              simp only [pointAdd, eq_self_iff_true, if_true]
              rw [if_pos hs]
              exact rfl
            · have hyne : (py : ZMod p) ≠ W.negY (px : ZMod p) (qy : ZMod p) := by
                rw [negY_eq]
                intro hc
                apply hs
                have hc2 : ((py + qy : Nat) : ZMod p) = 0 := by
                  push_cast
                  linear_combination hc
                have hlt : (py + qy) % p < p := Nat.mod_lt _ p_pos
                rw [← ZMod.natCast_mod] at hc2
                exact (castNat_eq_zero_iff hlt).mp hc2
              have hyy : (py : ZMod p) = (qy : ZMod p) :=
                WeierstrassCurve.Affine.Y_eq_of_Y_ne h1.1 h2.1 rfl hyne
              have hyy_nat : py = qy := (castNat_eq_iff hpy hqy).mp hyy
              subst hyy_nat
              have hdd : WeierstrassCurve.Affine.Point.some h1 +
                  WeierstrassCurve.Affine.Point.some h2 =
                  WeierstrassCurve.Affine.Point.some h1 +
                  WeierstrassCurve.Affine.Point.some h1 := rfl
              rw [hdd]
              simp only [pointAdd, eq_self_iff_true, if_true]
              rw [if_neg hs]
              exact reps_double ⟨hpx, hpy, rfl, rfl⟩
          · have hXne : (px : ZMod p) ≠ (qx : ZMod p) :=
              fun hc => hxeq ((castNat_eq_iff hpx hqx).mp hc)
            rw [WeierstrassCurve.Affine.Point.add_of_X_ne hXne]
            simp only [pointAdd]
            rw [if_neg hxeq]
            show reps (Pt.aff (outX (addL px py qx qy) px qx)
              (outY (addL px py qx qy) px py (outX (addL px py qx qy) px qx))) _
            have hsub_ne : (qx : ZMod p) - (px : ZMod p) ≠ 0 :=
              sub_ne_zero.mpr (Ne.symm hXne)
            have hL : ((addL px py qx qy : Nat) : ZMod p) =
                ((qy : ZMod p) - py) / ((qx : ZMod p) - px) :=
              cast_addL px py qx qy (le_of_lt hpy) (le_of_lt hpx) hsub_ne
            refine ⟨outX_lt _ _ _, outY_lt _ _ _ _, ?_, ?_⟩
            · rw [cast_outX _ _ _ (le_of_lt hpx) (le_of_lt hqx), hL,
                addX_eq, slope_add_eq hXne]
            · rw [cast_outY _ _ _ _ (le_of_lt hpy) (le_of_lt (outX_lt _ _ _)),
                cast_outX _ _ _ (le_of_lt hpx) (le_of_lt hqx), hL,
                addY_eq, addX_eq, slope_add_eq hXne]

end P256

namespace P256

theorem reps_scalarMulAux (fuel : Nat) :
    ∀ k P P1, k < 2 ^ fuel → reps P P1 →
      reps (scalarMulAux fuel k P) (k • P1) := by
  induction fuel with
  | zero =>
    intro k P P1 hk hP
    interval_cases k
    exact zero_nsmul P1
  | succ fuel ih =>
    intro k P P1 hk hP
    by_cases hk0 : k = 0
    · subst hk0
      exact zero_nsmul P1
    · have hdiv : k / 2 < 2 ^ fuel := by
        rw [Nat.div_lt_iff_lt_mul (by norm_num)]
        calc k < 2 ^ (fuel + 1) := hk
        _ = 2 ^ fuel * 2 := by ring
      have hrec := ih (k / 2) (pointDouble P) (P1 + P1) hdiv (reps_double hP)
      simp only [scalarMulAux]
      rw [if_neg hk0]
      by_cases hk2 : k % 2 = 1
      · rw [if_pos hk2]
        have hsum := reps_add hP hrec
        have harith : k • P1 = P1 + (k / 2) • (P1 + P1) := by
          rw [← two_nsmul, ← mul_nsmul']
          conv_lhs => rw [show k = 2 * (k / 2) + 1 from by omega]
          rw [add_nsmul, one_nsmul, add_comm, Nat.mul_comm 2 (k / 2)]
        rw [harith]
        exact hsum
      · rw [if_neg hk2]
        have harith : k • P1 = (k / 2) • (P1 + P1) := by
          rw [← two_nsmul, ← mul_nsmul']
          conv_lhs => rw [show k = 2 * (k / 2) from by omega]
          rw [Nat.mul_comm 2 (k / 2)]
        rw [harith]
        exact hrec

theorem reps_scalarMul (k : Nat) {P : Pt} {P1 : W.Point} (hP : reps P P1) :
    reps (scalarMul k P) (k • P1) :=
  reps_scalarMulAux k k P P1 (Nat.lt_two_pow k) hP

/-- The order computation: n times the base point is the point at
infinity, evaluated on the executable model. -/
theorem scalarMul_n_G : scalarMul n G = Pt.inf := by decide

theorem n_smul_Gpt : (n : Nat) • Gpt = 0 := by
  have h := reps_scalarMul n reps_G
  rw [scalarMul_n_G] at h
  exact reps_inf h

theorem Gpt_ne_zero : Gpt ≠ 0 :=
  WeierstrassCurve.Affine.Point.some_ne_zero _

theorem addOrderOf_Gpt : addOrderOf Gpt = n :=
  addOrderOf_eq_prime n_smul_Gpt Gpt_ne_zero

theorem smul_mod_Gpt (c : Nat) : c • Gpt = (c % n) • Gpt := by
  conv_lhs => rw [show c = n * (c / n) + c % n from (Nat.div_add_mod c n).symm]
  rw [show n * (c / n) = c / n * n from Nat.mul_comm _ _]
  rw [add_nsmul, mul_nsmul', n_smul_Gpt, nsmul_zero, zero_add]

theorem smul_Gpt_ne_zero {k : Nat} (h1 : 1 ≤ k) (h2 : k < n) :
    k • Gpt ≠ 0 := by
  intro hc
  have hdvd := addOrderOf_dvd_of_nsmul_eq_zero hc
  rw [addOrderOf_Gpt] at hdvd
  have := Nat.le_of_dvd (by omega) hdvd
  omega

end P256

namespace P256

/-! ## Correctness of verify after sign -/

theorem cast_powmod_inv {m : Nat} [Fact (Nat.Prime m)] (hm : 2 < m) (x : Nat)
    (hx : (x : ZMod m) ≠ 0) :
    ((powmod x (m - 2) m : Nat) : ZMod m) = (x : ZMod m)⁻¹ := by
  have hm0 : 0 < m := by omega
  rw [powmod_eq _ _ _ hm0, ZMod.natCast_mod]
  push_cast
  have h1 : (x : ZMod m) ^ (m - 1) = 1 := ZMod.pow_card_sub_one_eq_one hx
  have h2 : (x : ZMod m) ^ (m - 2) * (x : ZMod m) = 1 := by
    rw [← pow_succ]
    have h3 : m - 2 + 1 = m - 1 := by omega
    rw [h3]
    exact h1
  exact eq_inv_of_mul_eq_one_left h2

theorem signAttempt_fields {d mbar k r s : Nat}
    (h : signAttempt d mbar k = some (r, s)) :
    ∃ xR yR, scalarMul k G = Pt.aff xR yR ∧ r = xR % n ∧ ¬r = 0 ∧
      s = powmod k (n - 2) n * ((mbar + r * d) % n) % n ∧ ¬s = 0 := by
  unfold signAttempt at h
  split at h
  · exact absurd h (by simp)
  next xR yR hR =>
    split at h
    · exact absurd h (by simp)
    next h0 =>
      split at h
      · exact absurd h (by simp)
      next h1 =>
        have h2 := Option.some.inj h
        have hr : r = xR % n := (congrArg Prod.fst h2).symm
        have hs : s = powmod k (n - 2) n * ((mbar + xR % n * d) % n) % n :=
          (congrArg Prod.snd h2).symm
        subst hr
        exact ⟨xR, yR, hR, rfl, h0, hs, fun hc => h1 (hs ▸ hc)⟩

/-- The scalar congruence of ECDSA: the verification multipliers
recombine to the signing nonce modulo n. -/
theorem ver_congr (m0 d k r s : Nat)
    (hk0 : ¬(k : ZMod n) = 0) (hsne : ¬(s : ZMod n) = 0)
    (hs_eq : s = powmod k (n - 2) n * ((m0 + r * d) % n) % n) :
    (m0 * powmod s (n - 2) n % n + r * powmod s (n - 2) n % n * d) % n = k % n := by
  have hS : (s : ZMod n) = (k : ZMod n)⁻¹ * ((m0 : ZMod n) + (r : ZMod n) * d) := by
    rw [hs_eq, ZMod.natCast_mod]
    push_cast [ZMod.natCast_mod]
    rw [cast_powmod_inv n_gt_two k hk0]
  have hSK : (s : ZMod n) * k = (m0 : ZMod n) + (r : ZMod n) * d := by
    rw [hS, mul_comm ((k : ZMod n)⁻¹) _, mul_assoc, inv_mul_cancel₀ hk0, mul_one]
  have hu : ((s : ZMod n))⁻¹ * ((m0 : ZMod n) + (r : ZMod n) * d) = (k : ZMod n) := by
    rw [← hSK, ← mul_assoc, inv_mul_cancel₀ hsne, one_mul]
  apply (ZMod.natCast_eq_natCast_iff _ _ _).mp
  push_cast [ZMod.natCast_mod]
  rw [cast_powmod_inv n_gt_two s hsne]
  rw [show (m0 : ZMod n) * ((s : ZMod n))⁻¹ + (r : ZMod n) * ((s : ZMod n))⁻¹ * d =
      ((s : ZMod n))⁻¹ * ((m0 : ZMod n) + (r : ZMod n) * d) from by ring]
  exact hu

/-- The group recombination of ECDSA on the Mathlib curve points. -/
theorem ver_point (d k u1 u2 : Nat)
    (hmod : (u1 + u2 * d) % n = k % n) :
    u1 • Gpt + u2 • (d • Gpt) = k • Gpt := by
  rw [← mul_nsmul', ← add_nsmul, smul_mod_Gpt (u1 + u2 * d), hmod, ← smul_mod_Gpt]

theorem verify_sign_correct (digest : List Nat) (d k r s : Nat)
    (hk1 : 1 ≤ k) (hk2 : k < n)
    (hsig : signAttempt d (beNat digest % n) k = some (r, s)) :
    verify digest (derivePublicKey d) r s = VerifyResult.valid := by
  obtain ⟨xR, yR, hR, hr_eq, hr0, hs_eq, hs0⟩ := signAttempt_fields hsig
  have hrlt : r < n := by
    rw [hr_eq]
    exact Nat.mod_lt _ n_pos
  have hslt : s < n := by
    rw [hs_eq]
    exact Nat.mod_lt _ n_pos
  have hKne : ¬(k : ZMod n) = 0 :=
    fun hc => by have := (castNat_eq_zero_iff hk2).mp hc; omega
  have hSne : ¬(s : ZMod n) = 0 :=
    fun hc => hs0 ((castNat_eq_zero_iff hslt).mp hc)
  have hmod := ver_congr (beNat digest % n) d k r s hKne hSne hs_eq
  generalize hu1 : beNat digest % n * powmod s (n - 2) n % n = u1 at hmod
  generalize hu2 : r * powmod s (n - 2) n % n = u2 at hmod
  have hpoint := ver_point d k u1 u2 hmod
  have h1 := reps_scalarMul u1 reps_G
  have h2 := reps_scalarMul u2 (reps_scalarMul d reps_G)
  have h3 := reps_add h1 h2
  rw [hpoint] at h3
  have hkG := reps_scalarMul k reps_G
  rw [hR] at hkG
  have hkns : k • Gpt ≠ 0 := smul_Gpt_ne_zero hk1 hk2
  rcases hQeq : (k • Gpt) with _ | @⟨Xk, Yk, hnsk⟩
  · exact absurd hQeq hkns
  rw [hQeq] at hkG h3
  obtain ⟨hxRlt, hyRlt, hcxR, hcyR⟩ := hkG
  rcases hXeq : pointAdd (scalarMul u1 G) (scalarMul u2 (scalarMul d G))
    with _ | ⟨xV, yV⟩
  · rw [hXeq] at h3
    exact absurd h3 (WeierstrassCurve.Affine.Point.some_ne_zero hnsk)
  rw [hXeq] at h3
  obtain ⟨hxVlt, hyVlt, hcxV, hcyV⟩ := h3
  have hxVR : xV = xR := (castNat_eq_iff hxVlt hxRlt).mp (hcxV.trans hcxR.symm)
  have hmal : ¬(r = 0 ∨ s = 0 ∨ n ≤ r ∨ n ≤ s) := by
    push_neg
    refine ⟨hr0, hs0, hrlt, hslt⟩
  have hfin : xV % n = r := by rw [hxVR, hr_eq]
  unfold verify
  rw [if_neg hmal]
  rw [show derivePublicKey d = scalarMul d G from rfl]
  rw [hu1, hu2, hXeq]
  show (if xV % n = r then VerifyResult.valid else VerifyResult.invalid) =
    VerifyResult.valid
  rw [if_pos hfin]

end P256

namespace P256

/-! ## The sign loop: soundness, termination, component ranges -/

theorem signLoop_sound (ks : Nat → Nat) (d mbar : Nat) :
    ∀ fuel i sig, signLoop ks d mbar fuel i = some sig →
      ∃ j, signAttempt d mbar (ks j) = some sig := by
  intro fuel
  induction fuel with
  | zero =>
    intro i sig h
    exact absurd h (by simp [signLoop])
  | succ fuel ih =>
    intro i sig h
    rw [signLoop] at h
    cases hA : signAttempt d mbar (ks i) with
    | some sig2 =>
      rw [hA] at h
      exact ⟨i, hA.trans h⟩
    | none =>
      rw [hA] at h
      exact ih (i + 1) sig h

theorem signLoop_isSome (ks : Nat → Nat) (d mbar : Nat) :
    ∀ fuel i j, j < fuel → signAttempt d mbar (ks (i + j)) ≠ none →
      (signLoop ks d mbar fuel i).isSome := by
  intro fuel
  induction fuel with
  | zero =>
    intro i j hj
    omega
  | succ fuel ih =>
    intro i j hj hsucc
    rw [signLoop]
    cases hA : signAttempt d mbar (ks i) with
    | some sig2 => rfl
    | none =>
      have hj0 : j ≠ 0 := by
        intro hc
        subst hc
        exact hsucc (by simpa using hA)
      have := ih (i + 1) (j - 1) (by omega)
        (by rw [show i + 1 + (j - 1) = i + j from by omega]; exact hsucc)
      exact this

theorem signAttempt_range {d mbar k r s : Nat}
    (h : signAttempt d mbar k = some (r, s)) :
    1 ≤ r ∧ r < n ∧ 1 ≤ s ∧ s < n := by
  obtain ⟨xR, yR, hR, hr_eq, hr0, hs_eq, hs0⟩ := signAttempt_fields h
  refine ⟨by omega, ?_, by omega, ?_⟩
  · rw [hr_eq]
    exact Nat.mod_lt _ n_pos
  · rw [hs_eq]
    exact Nat.mod_lt _ n_pos

theorem detNonce_valid (d mbar i : Nat) :
    1 ≤ detNonce d mbar i ∧ detNonce d mbar i < n := by
  unfold detNonce
  have h1 : (d + mbar + i) % (n - 1) < n - 1 :=
    Nat.mod_lt _ (by have := n_gt_two; omega)
  omega

/-! ## Byte encoding lemmas -/

theorem beNat_foldl (l : List Nat) :
    ∀ init, List.foldl (fun acc d => acc * 256 + d) init l =
      init * 256 ^ l.length + beNat l := by
  induction l with
  | nil =>
    intro init
    simp [beNat]
  | cons d rest ih =>
    intro init
    show List.foldl _ (init * 256 + d) rest = _
    rw [ih (init * 256 + d)]
    have hbe : beNat (d :: rest) = d * 256 ^ rest.length + beNat rest := by
      show List.foldl _ (0 * 256 + d) rest = _
      rw [ih (0 * 256 + d)]
      ring_nf
    rw [hbe]
    simp [List.length_cons, pow_succ]
    ring

theorem beNat_cons (d : Nat) (rest : List Nat) :
    beNat (d :: rest) = d * 256 ^ rest.length + beNat rest := by
  show List.foldl _ (0 * 256 + d) rest = _
  rw [beNat_foldl rest (0 * 256 + d)]
  ring_nf

theorem beNat_append (l1 l2 : List Nat) :
    beNat (l1 ++ l2) = beNat l1 * 256 ^ l2.length + beNat l2 := by
  show List.foldl _ 0 (l1 ++ l2) = _
  rw [List.foldl_append]
  exact beNat_foldl l2 (beNat l1)

theorem beNat_lt (l : List Nat) (h : ∀ x ∈ l, x < 256) :
    beNat l < 256 ^ l.length := by
  induction l with
  | nil => simp [beNat]
  | cons d rest ih =>
    rw [beNat_cons]
    have hd : d < 256 := h d (List.mem_cons_self d rest)
    have hrest := ih (fun x hx => h x (List.mem_cons_of_mem d hx))
    have : (d + 1) * 256 ^ rest.length ≤ 256 ^ (rest.length + 1) := by
      rw [pow_succ, mul_comm (256 ^ rest.length) 256]
      exact Nat.mul_le_mul_right _ (by omega)
    simp only [List.length_cons]
    calc d * 256 ^ rest.length + beNat rest
        < d * 256 ^ rest.length + 256 ^ rest.length := by omega
      _ = (d + 1) * 256 ^ rest.length := by ring
      _ ≤ 256 ^ (rest.length + 1) := this

theorem leBytes_length (len : Nat) : ∀ v, (leBytes len v).length = len := by
  induction len with
  | zero => intro v; rfl
  | succ len ih =>
    intro v
    show (v % 256 :: leBytes len (v / 256)).length = len + 1
    rw [List.length_cons, ih]

theorem beBytes_length (len v : Nat) : (beBytes len v).length = len := by
  rw [beBytes, List.length_reverse, leBytes_length]

theorem leBytes_mem_lt (len : Nat) :
    ∀ v x, x ∈ leBytes len v → x < 256 := by
  induction len with
  | zero =>
    intro v x hx
    exact absurd hx (List.not_mem_nil x)
  | succ len ih =>
    intro v x hx
    rcases List.mem_cons.mp hx with rfl | hx
    · exact Nat.mod_lt _ (by norm_num)
    · exact ih (v / 256) x hx

theorem beBytes_mem_lt (len v x : Nat) (hx : x ∈ beBytes len v) : x < 256 :=
  leBytes_mem_lt len v x (List.mem_reverse.mp hx)

theorem beNat_beBytes (len : Nat) : ∀ v, v < 256 ^ len →
    beNat (beBytes len v) = v := by
  induction len with
  | zero =>
    intro v hv
    interval_cases v
    rfl
  | succ len ih =>
    intro v hv
    have hstep : beBytes (len + 1) v = beBytes len (v / 256) ++ [v % 256] := by
      rw [beBytes, beBytes]
      show (v % 256 :: leBytes len (v / 256)).reverse = _
      rw [List.reverse_cons]
    rw [hstep, beNat_append]
    have hdiv : v / 256 < 256 ^ len := by
      rw [Nat.div_lt_iff_lt_mul (by norm_num)]
      calc v < 256 ^ (len + 1) := hv
      _ = 256 ^ len * 256 := by rw [pow_succ]
    rw [ih (v / 256) hdiv]
    show v / 256 * 256 ^ 1 + beNat [v % 256] = v
    have hb1 : beNat [v % 256] = v % 256 := by
      show List.foldl _ 0 [v % 256] = v % 256
      simp [List.foldl]
    rw [hb1]
    have := Nat.div_add_mod v 256
    simp [pow_one]
    omega

theorem beBytes_beNat (l : List Nat) (h : ∀ x ∈ l, x < 256) :
    beBytes l.length (beNat l) = l := by
  induction l using List.reverseRecOn with
  | nil => rfl
  | append_singleton l' d ih =>
    have hd : d < 256 := h d (by simp)
    have hl' : ∀ x ∈ l', x < 256 := fun x hx => h x (by simp [hx])
    have hval : beNat (l' ++ [d]) = beNat l' * 256 + d := by
      rw [beNat_append]
      have hb1 : beNat [d] = d := by
        show List.foldl _ 0 [d] = d
        simp [List.foldl]
      rw [hb1]
      simp [pow_one]
    have hlen : (l' ++ [d]).length = l'.length + 1 := by simp
    rw [hlen, hval]
    have hstep : beBytes (l'.length + 1) (beNat l' * 256 + d) =
        beBytes l'.length ((beNat l' * 256 + d) / 256) ++ [(beNat l' * 256 + d) % 256] := by
      rw [beBytes, beBytes]
      show ((beNat l' * 256 + d) % 256 :: leBytes l'.length ((beNat l' * 256 + d) / 256)).reverse = _
      rw [List.reverse_cons]
    rw [hstep]
    have hmod : (beNat l' * 256 + d) % 256 = d := by omega
    have hdiv : (beNat l' * 256 + d) / 256 = beNat l' := by
      omega
    rw [hmod, hdiv, ih hl']

end P256

namespace EcdsaDemo

open P256

/-! ## Concrete evaluations on the example inputs -/

/-- The deterministic nonce stream for the example key and digest,
instantiating NonceSource strategy (b) of the spec. -/
def aliceNonceStream : Nat → Nat :=
  fun i => detNonce (beNat m_alice_raw_private_key) (beNat m_hash % n) i

/-- The r component of the signature the deterministic strategy
produces on the example inputs. -/
def sigR : Nat := 0xDCED928B58F37946567C98E95F69C148D2ABCE64BE15A7D98327EC25AED78D7A

/-- The s component of the signature the deterministic strategy
produces on the example inputs. -/
def sigS : Nat := 0xA9522780FC9327D2BCDFB7E2D50D915EF78499CDDA85F4728C79C9BE6F3089E6

/-- Evaluation: the example private key imports successfully. -/
theorem import_alice_eval : importPrivateKey m_alice_raw_private_key =
    Except.ok (beNat m_alice_raw_private_key) := rfl

/-- Evaluation: the public key derived from the example private key is
exactly the point of the 64-byte vector of main.c. -/
theorem derive_alice_eval : derivePublicKey (beNat m_alice_raw_private_key) =
    Pt.aff 0x0217E617F0B6443928278F96999E69A23A4F2C152BDF6D6CDF66E5B80282D4ED
      0x194A7DEBCB97712D2DDA3CA85AA8765A56F45FC758599652F2897C65306E5794 := by
  decide

/-- Evaluation: the first deterministic signing attempt on the example
inputs succeeds with the signature (sigR, sigS). -/
theorem sign_attempt_alice_eval :
    signAttempt (beNat m_alice_raw_private_key) (beNat m_hash % n)
      (detNonce (beNat m_alice_raw_private_key) (beNat m_hash % n) 0) =
      some (sigR, sigS) := by
  decide

/-- The deterministic sign call of the known-answer test returns the
signature (sigR, sigS) at the first attempt. -/
theorem sign_alice_eval :
    sign aliceNonceStream 1 m_hash (beNat m_alice_raw_private_key) =
      some (sigR, sigS) := by
  show signLoop aliceNonceStream (beNat m_alice_raw_private_key)
    (beNat m_hash % n) 1 0 = some (sigR, sigS)
  rw [signLoop]
  rw [show aliceNonceStream 0 =
    detNonce (beNat m_alice_raw_private_key) (beNat m_hash % n) 0 from rfl]
  rw [sign_attempt_alice_eval]

/-- The known-answer signature verifies, by the general correctness
theorem rather than re-evaluation. -/
theorem verify_alice_eval :
    verify m_hash (derivePublicKey (beNat m_alice_raw_private_key)) sigR sigS =
      VerifyResult.valid :=
  verify_sign_correct m_hash (beNat m_alice_raw_private_key)
    (detNonce (beNat m_alice_raw_private_key) (beNat m_hash % n) 0) sigR sigS
    (detNonce_valid _ _ 0).1 (detNonce_valid _ _ 0).2 sign_attempt_alice_eval

end EcdsaDemo

namespace EcdsaDemo

open P256

/-! ## The claims -/

/-- C1: for every valid private key d, every 32-byte digest and every
nonce stream within the NonceSource contract, a signature returned by
sign verifies under the derived public key. -/
theorem C1_sign_then_verify_valid (ks : Nat → Nat)
    (hks : ∀ i, 1 ≤ ks i ∧ ks i < n) (d : Nat)
    (hd1 : 1 ≤ d) (hd2 : d < n) (digest : List Nat)
    (hlen : digest.length = 32) (hbytes : ∀ x ∈ digest, x < 256)
    (fuel r s : Nat) (hsig : sign ks fuel digest d = some (r, s)) :
    verify digest (derivePublicKey d) r s = VerifyResult.valid := by
  obtain ⟨j, hA⟩ := signLoop_sound ks d (beNat digest % n) fuel 0 (r, s) hsig
  exact verify_sign_correct digest d (ks j) r s (hks j).1 (hks j).2 hA

/-- Witness for C1 at the example inputs of main.c. -/
theorem C1_witness :
    (∀ i, 1 ≤ aliceNonceStream i ∧ aliceNonceStream i < n) ∧
    1 ≤ beNat m_alice_raw_private_key ∧ beNat m_alice_raw_private_key < n ∧
    m_hash.length = 32 ∧ (∀ x ∈ m_hash, x < 256) ∧
    sign aliceNonceStream 1 m_hash (beNat m_alice_raw_private_key) =
      some (sigR, sigS) ∧
    verify m_hash (derivePublicKey (beNat m_alice_raw_private_key)) sigR sigS =
      VerifyResult.valid := by
  refine ⟨fun i => detNonce_valid _ _ i, by decide, by decide, by decide,
    by decide, sign_alice_eval, ?_⟩
  exact C1_sign_then_verify_valid aliceNonceStream
    (fun i => detNonce_valid _ _ i) (beNat m_alice_raw_private_key)
    (by decide) (by decide) m_hash (by decide) (by decide) 1 sigR sigS
    sign_alice_eval

/-- C2 counterexample: the public key reproduced from the all-0x11
private key is the 64-byte raw vector of the source, not a 65-byte
form. -/
theorem C2_counterexample :
    (exportPublicKey (derivePublicKey (beNat m_alice_raw_private_key))).length
      ≠ 65 := by
  rw [derive_alice_eval]
  decide

/-- C2 amended: with the deterministic NonceSource strategy, the
all-0x11 private key reproduces the reference public key in its actual
64-byte raw form, the form used by the source demonstration, and
verify accepts the resulting signature. -/
theorem C2_known_answer :
    exportPublicKey (derivePublicKey (beNat m_alice_raw_private_key)) =
      m_alice_raw_public_key ∧
    m_alice_raw_public_key.length = 64 ∧
    sign aliceNonceStream 1 m_hash (beNat m_alice_raw_private_key) =
      some (sigR, sigS) ∧
    verify m_hash (derivePublicKey (beNat m_alice_raw_private_key)) sigR sigS =
      VerifyResult.valid := by
  refine ⟨?_, by decide, sign_alice_eval, verify_alice_eval⟩
  rw [derive_alice_eval]
  decide

/-- C3: verify reports the malformed outcome, distinct from the valid
and invalid outcomes, whenever r or s is zero or at least n. -/
theorem C3_verify_malformed (digest : List Nat) (q : Pt) (r s : Nat)
    (h : r = 0 ∨ s = 0 ∨ n ≤ r ∨ n ≤ s) :
    verify digest q r s = VerifyResult.malformed ∧
    verify digest q r s ≠ VerifyResult.valid ∧
    verify digest q r s ≠ VerifyResult.invalid := by
  have hm : verify digest q r s = VerifyResult.malformed := by
    unfold verify
    rw [if_pos h]
  refine ⟨hm, ?_, ?_⟩
  · rw [hm]
    intro hc
    cases hc
  · rw [hm]
    intro hc
    cases hc

/-- Witness for C3 with a zero r component. -/
theorem C3_witness :
    ((0 : Nat) = 0 ∨ (1 : Nat) = 0 ∨ n ≤ 0 ∨ n ≤ 1) ∧
    verify m_hash Pt.inf 0 1 = VerifyResult.malformed :=
  ⟨Or.inl rfl, (C3_verify_malformed m_hash Pt.inf 0 1 (Or.inl rfl)).1⟩

/-- C4: importPrivateKey fails with invalidKeyLength away from length
32, fails with invalidScalarRange on a zero or too large scalar, and
succeeds exactly on 32-byte encodings of scalars in the private key
range. -/
theorem C4_import_private_key (bytes : List Nat) :
    (bytes.length ≠ 32 → importPrivateKey bytes =
      Except.error KeyError.invalidKeyLength) ∧
    (bytes.length = 32 → beNat bytes = 0 ∨ n ≤ beNat bytes →
      importPrivateKey bytes = Except.error KeyError.invalidScalarRange) ∧
    (bytes.length = 32 → 1 ≤ beNat bytes → beNat bytes < n →
      importPrivateKey bytes = Except.ok (beNat bytes)) := by
  refine ⟨?_, ?_, ?_⟩
  · intro hlen
    unfold importPrivateKey
    rw [if_pos hlen]
  · intro hlen hrange
    unfold importPrivateKey
    rw [if_neg (by omega : ¬bytes.length ≠ 32), if_pos hrange]
  · intro hlen h1 h2
    unfold importPrivateKey
    rw [if_neg (by omega : ¬bytes.length ≠ 32),
      if_neg (by push_neg; omega : ¬(beNat bytes = 0 ∨ n ≤ beNat bytes))]

/-- Witness for C4 on the example private key bytes. -/
theorem C4_witness :
    m_alice_raw_private_key.length = 32 ∧
    importPrivateKey m_alice_raw_private_key =
      Except.ok (beNat m_alice_raw_private_key) :=
  ⟨by decide, (C4_import_private_key m_alice_raw_private_key).2.2
    (by decide) (by decide) (by decide)⟩

/-- C5: whenever some attempt within the fuel bound succeeds, sign
terminates with a signature, and both of its components lie in the
scalar range 1 to n - 1. -/
theorem C5_sign_terminates_in_range (ks : Nat → Nat) (digest : List Nat)
    (d fuel j : Nat) (hj : j < fuel)
    (hsucc : signAttempt d (beNat digest % n) (ks j) ≠ none) :
    ∃ r s, sign ks fuel digest d = some (r, s) ∧
      1 ≤ r ∧ r < n ∧ 1 ≤ s ∧ s < n := by
  have hsome := signLoop_isSome ks d (beNat digest % n) fuel 0 j hj
    (by rw [Nat.zero_add]; exact hsucc)
  cases hS : signLoop ks d (beNat digest % n) fuel 0 with
  | none =>
    rw [hS] at hsome
    exact absurd hsome (by simp)
  | some sig =>
    rcases sig with ⟨r, s⟩
    obtain ⟨j2, hA⟩ := signLoop_sound ks d (beNat digest % n) fuel 0 (r, s) hS
    obtain ⟨hr1, hr2, hs1, hs2⟩ := signAttempt_range hA
    exact ⟨r, s, hS, hr1, hr2, hs1, hs2⟩

/-- Witness for C5 at the example inputs with the deterministic
strategy. -/
theorem C5_witness :
    (0 : Nat) < 1 ∧
    signAttempt (beNat m_alice_raw_private_key) (beNat m_hash % n)
      (aliceNonceStream 0) ≠ none ∧
    (∃ r s, sign aliceNonceStream 1 m_hash (beNat m_alice_raw_private_key) =
      some (r, s) ∧ 1 ≤ r ∧ r < n ∧ 1 ≤ s ∧ s < n) := by
  have hne : signAttempt (beNat m_alice_raw_private_key) (beNat m_hash % n)
      (aliceNonceStream 0) ≠ none := by
    rw [show aliceNonceStream 0 =
      detNonce (beNat m_alice_raw_private_key) (beNat m_hash % n) 0 from rfl]
    rw [sign_attempt_alice_eval]
    simp
  exact ⟨by decide, hne, C5_sign_terminates_in_range aliceNonceStream m_hash
    (beNat m_alice_raw_private_key) 1 0 (by decide) hne⟩

/-- C6 counterexample: the raw public key vector of the source has 64
bytes, not 65, and it imports successfully rather than failing with
invalidKeyLength. -/
theorem C6_counterexample :
    m_alice_raw_public_key.length ≠ 65 ∧
    importPublicKey m_alice_raw_public_key ≠
      Except.error KeyError.invalidKeyLength := by
  constructor
  · decide
  · rw [show importPublicKey m_alice_raw_public_key =
      Except.ok (Pt.aff (beNat (m_alice_raw_public_key.take 32))
        (beNat (m_alice_raw_public_key.drop 32))) from rfl]
    intro hc
    cases hc

/-- C6 amended: importPublicKey accepts exactly the 64-byte raw X and Y
encoding used by the source demonstration, fails with invalidKeyLength
on every other length, and validates the point on import. -/
theorem C6_import_public_key (bytes : List Nat) :
    (bytes.length ≠ 64 → importPublicKey bytes =
      Except.error KeyError.invalidKeyLength) ∧
    (bytes.length = 64 →
      onCurve (beNat (bytes.take 32)) (beNat (bytes.drop 32)) = true →
      importPublicKey bytes = Except.ok
        (Pt.aff (beNat (bytes.take 32)) (beNat (bytes.drop 32)))) ∧
    (bytes.length = 64 →
      onCurve (beNat (bytes.take 32)) (beNat (bytes.drop 32)) = false →
      importPublicKey bytes = Except.error KeyError.pointNotOnCurve) := by
  refine ⟨?_, ?_, ?_⟩
  · intro hlen
    unfold importPublicKey
    rw [if_pos hlen]
  · intro hlen hoc
    unfold importPublicKey
    rw [if_neg (by omega : ¬bytes.length ≠ 64), if_pos hoc]
  · intro hlen hoc
    unfold importPublicKey
    rw [if_neg (by omega : ¬bytes.length ≠ 64),
      if_neg (by rw [hoc]; exact Bool.false_ne_true)]

/-- Witness for C6 on the example public key bytes. -/
theorem C6_witness :
    m_alice_raw_public_key.length = 64 ∧
    onCurve (beNat (m_alice_raw_public_key.take 32))
      (beNat (m_alice_raw_public_key.drop 32)) = true ∧
    importPublicKey m_alice_raw_public_key = Except.ok
      (Pt.aff (beNat (m_alice_raw_public_key.take 32))
        (beNat (m_alice_raw_public_key.drop 32))) :=
  ⟨by decide, by decide, (C6_import_public_key m_alice_raw_public_key).2.1
    (by decide) (by decide)⟩

end EcdsaDemo

namespace EcdsaDemo

open P256

/-- Fixed-width variant of the encode-decode inverse. -/
theorem beBytes_fixed (l : List Nat) {w : Nat} (hl : l.length = w)
    (h : ∀ x ∈ l, x < 256) : beBytes w (beNat l) = l := by
  rw [← hl]
  exact beBytes_beNat l h

/-- C7: export is the byte-for-byte inverse of import on every valid
raw encoding, public and private, so the import-export round trip is
stable. -/
theorem C7_export_import_roundtrip (bytes : List Nat)
    (hb : ∀ x ∈ bytes, x < 256) :
    (∀ q, importPublicKey bytes = Except.ok q →
      exportPublicKey q = bytes ∧
      importPublicKey (exportPublicKey q) = importPublicKey bytes) ∧
    (∀ dd, importPrivateKey bytes = Except.ok dd →
      exportPrivateKey dd = bytes ∧
      importPrivateKey (exportPrivateKey dd) = importPrivateKey bytes) := by
  constructor
  · intro q hq
    have hlen : bytes.length = 64 := by
      by_contra hc
      rw [importPublicKey, if_pos hc] at hq
      cases hq
    rw [importPublicKey, if_neg (by omega : ¬bytes.length ≠ 64)] at hq
    by_cases hoc : onCurve (beNat (bytes.take 32)) (beNat (bytes.drop 32)) = true
    · rw [if_pos hoc] at hq
      have hq2 := Except.ok.inj hq
      subst hq2
      have htlen : (bytes.take 32).length = 32 := by
        rw [List.length_take, hlen]
        omega
      have hdlen : (bytes.drop 32).length = 32 := by
        rw [List.length_drop, hlen]
      have htb : ∀ x ∈ bytes.take 32, x < 256 :=
        fun x hx => hb x (List.mem_of_mem_take hx)
      have hdb : ∀ x ∈ bytes.drop 32, x < 256 :=
        fun x hx => hb x (List.mem_of_mem_drop hx)
      have hexp : exportPublicKey
          (Pt.aff (beNat (bytes.take 32)) (beNat (bytes.drop 32))) = bytes := by
        show beBytes 32 (beNat (bytes.take 32)) ++
          beBytes 32 (beNat (bytes.drop 32)) = bytes
        rw [beBytes_fixed (bytes.take 32) htlen htb,
          beBytes_fixed (bytes.drop 32) hdlen hdb]
        exact List.take_append_drop 32 bytes
      refine ⟨hexp, ?_⟩
      rw [hexp]
    · rw [if_neg hoc] at hq
      cases hq
  · intro dd hq
    have hlen : bytes.length = 32 := by
      by_contra hc
      rw [importPrivateKey, if_pos hc] at hq
      cases hq
    rw [importPrivateKey, if_neg (by omega : ¬bytes.length ≠ 32)] at hq
    by_cases hrange : beNat bytes = 0 ∨ n ≤ beNat bytes
    · rw [if_pos hrange] at hq
      cases hq
    · rw [if_neg hrange] at hq
      have hq2 := Except.ok.inj hq
      subst hq2
      have hexp : exportPrivateKey (beNat bytes) = bytes :=
        beBytes_fixed bytes hlen hb
      refine ⟨hexp, ?_⟩
      rw [hexp]

/-- Witness for C7 on the example public and private key bytes. -/
theorem C7_witness :
    (∀ x ∈ m_alice_raw_public_key, x < 256) ∧
    exportPublicKey (Pt.aff (beNat (m_alice_raw_public_key.take 32))
      (beNat (m_alice_raw_public_key.drop 32))) = m_alice_raw_public_key ∧
    exportPrivateKey (beNat m_alice_raw_private_key) =
      m_alice_raw_private_key := by
  refine ⟨by decide, ?_, ?_⟩
  · exact ((C7_export_import_roundtrip m_alice_raw_public_key (by decide)).1
      (Pt.aff (beNat (m_alice_raw_public_key.take 32))
        (beNat (m_alice_raw_public_key.drop 32))) rfl).1
  · exact ((C7_export_import_roundtrip m_alice_raw_private_key (by decide)).2
      (beNat m_alice_raw_private_key) import_alice_eval).1

/-- C8: in the branch structure of bob_verify, an invalid-signature
code is non fatal, logs the warning, and the public key is still
freed; success logs the valid message; every other code escalates
through the fatal error check before the key is freed. -/
theorem C8_bob_verify_dispatch :
    bob_verify_dispatch RetCode.ecdsaInvalidSignature RetCode.success =
      some ⟨false, true, true⟩ ∧
    bob_verify_dispatch RetCode.success RetCode.success =
      some ⟨true, false, true⟩ ∧
    ∀ c free, bob_verify_dispatch (RetCode.otherError c) free = none :=
  ⟨rfl, rfl, fun c free => rfl⟩

/-- C9: on the normal path of alice_sign, the signature is written to
the globals before the private key is freed, the freed state still
holds the signature, and freeing the key changes no other field. -/
theorem C9_alice_sign_frame (ks : Nat → Nat) (fuel : Nat) (st : DemoState)
    (r s : Nat)
    (hsig : sign ks fuel m_hash (beNat m_alice_raw_private_key) =
      some (r, s)) :
    (∃ st3, alice_sign ks fuel st = some (st3,
        [Event.importKey, Event.writeSignature r s, Event.freeKey]) ∧
      st3.m_signature = some (r, s) ∧ st3.aliceKey = none) ∧
    (∀ st2 : DemoState, (freeKey st2).m_signature = st2.m_signature ∧
      (freeKey st2).m_signature_size = st2.m_signature_size) := by
  constructor
  · unfold alice_sign
    split
    next e heq =>
      rw [import_alice_eval] at heq
      cases heq
    next dd heq =>
      rw [import_alice_eval] at heq
      have hdd := Except.ok.inj heq
      subst hdd
      rw [hsig]
      exact ⟨_, rfl, rfl, rfl⟩
  · intro st2
    exact ⟨rfl, rfl⟩

/-- Witness for C9 at the example inputs with the deterministic
strategy. -/
theorem C9_witness :
    sign aliceNonceStream 1 m_hash (beNat m_alice_raw_private_key) =
      some (sigR, sigS) ∧
    (∃ st3, alice_sign aliceNonceStream 1 initState = some (st3,
        [Event.importKey, Event.writeSignature sigR sigS, Event.freeKey]) ∧
      st3.m_signature = some (sigR, sigS) ∧ st3.aliceKey = none) :=
  ⟨sign_alice_eval,
    (C9_alice_sign_frame aliceNonceStream 1 initState sigR sigS
      sign_alice_eval).1⟩

/-- C10: both library entry points accept a missing context, selecting
the default backend: the sign call with none returns the signature and
the verify call with none returns success on a valid signature. -/
theorem C10_null_context (ks : Nat → Nat) (fuel : Nat) (digest : List Nat)
    (d r s : Nat) (q : Pt)
    (hsig : sign ks fuel digest d = some (r, s))
    (hver : verify digest q r s = VerifyResult.valid) :
    nrf_crypto_ecdsa_sign none ks fuel digest d = Except.ok (r, s) ∧
    nrf_crypto_ecdsa_verify none digest q r s = RetCode.success := by
  constructor
  · show (match sign ks fuel digest d with
      | some sig => Except.ok sig
      | none => Except.error (RetCode.otherError 1)) = Except.ok (r, s)
    rw [hsig]
  · show (match verify digest q r s with
      | VerifyResult.valid => RetCode.success
      | VerifyResult.invalid => RetCode.ecdsaInvalidSignature
      | VerifyResult.malformed => RetCode.ecdsaInvalidSignature) =
      RetCode.success
    rw [hver]

/-- Witness for C10 at the example inputs. -/
theorem C10_witness :
    sign aliceNonceStream 1 m_hash (beNat m_alice_raw_private_key) =
      some (sigR, sigS) ∧
    nrf_crypto_ecdsa_sign none aliceNonceStream 1 m_hash
      (beNat m_alice_raw_private_key) = Except.ok (sigR, sigS) ∧
    nrf_crypto_ecdsa_verify none m_hash
      (derivePublicKey (beNat m_alice_raw_private_key)) sigR sigS =
      RetCode.success :=
  ⟨sign_alice_eval,
    (C10_null_context aliceNonceStream 1 m_hash
      (beNat m_alice_raw_private_key) sigR sigS
      (derivePublicKey (beNat m_alice_raw_private_key))
      sign_alice_eval verify_alice_eval).1,
    (C10_null_context aliceNonceStream 1 m_hash
      (beNat m_alice_raw_private_key) sigR sigS
      (derivePublicKey (beNat m_alice_raw_private_key))
      sign_alice_eval verify_alice_eval).2⟩

end EcdsaDemo
